import Mathlib

/-! The files `win32/poll.c` and `win32/flock.c` of busybox-w32.

A shallow embedding of the Windows-native `poll` emulation and of the `flock`
emulation, followed by theorems about them.

Conventions of the embedding.

* Values of C type `int`, `long` and `DWORD` that are used as bit masks are
  natural numbers holding the 32-bit two's-complement pattern; a `short` is the
  16-bit pattern.  `sext16` is the promotion `short -> int`, `toShort` the
  conversion `int -> short`, `not32` the operator `~` on `int`.
* Descriptors, `timeout` and `clock_t` values are integers.
* The operating system is a deterministic environment `Native σ`: every native
  call reads its answer from the current environment state and then advances
  it with `next`.  Every native call is also appended to a log.
* Loops that the C code does not bound (`restart:`, `for (;;)`, the
  `PeekMessage` drain) take fuel; running out of fuel is the outcome `nofuel`.
* Undefined behaviour of the C code (dereferencing an absent table, reading
  past the table, a failed `assert`, overrunning `handle_array`) is the
  outcome `fault`.
* Constants that come from headers outside `src/` are fields of `Consts`.
-/

namespace BusyboxW32

/-! ## Constants declared in headers -/

/-- Constants used by `poll.c` and `flock.c` whose definitions live in headers
that are not part of the sources under study; they are parameters of the
embedding. -/
structure Consts where
  POLLIN : Nat
  POLLPRI : Nat
  POLLOUT : Nat
  POLLERR : Nat
  POLLHUP : Nat
  POLLRDNORM : Nat
  POLLRDBAND : Nat
  POLLWRNORM : Nat
  POLLWRBAND : Nat
  FD_READ : Nat
  FD_WRITE : Nat
  FD_OOB : Nat
  FD_ACCEPT : Nat
  FD_CONNECT : Nat
  FD_CLOSE : Nat
  FD_SETSIZE : Nat
  WSAENOTCONN : Int
  WSAESHUTDOWN : Int
  WSAECONNRESET : Int
  WSAECONNABORTED : Int
  WSAENETRESET : Int
  ERROR_BROKEN_PIPE : Nat
  FILE_TYPE_PIPE : Nat
  FILE_TYPE_CHAR : Nat
  WAIT_OBJECT_0 : Nat
  INFINITE : Nat
  KEY_EVENT : Nat
  INT_MAX : Nat
  EINVAL : Int
  EBADF : Int
  LOCK_SH : Nat
  LOCK_EX : Nat
  LOCK_UN : Nat
  LOCK_NB : Nat
  LOCKFILE_EXCLUSIVE_LOCK : Nat
  LOCKFILE_FAIL_IMMEDIATELY : Nat
  INVALID_HANDLE_VALUE : Int
deriving Repr

/-- The value `INFTIM` that `poll.c` defines itself (`# define INFTIM (-1)`). -/
def INFTIM : Int := -1

/-- The values the constants have in the Windows and gnulib headers. -/
def stdConsts : Consts where
  POLLIN := 0x0001
  POLLPRI := 0x0002
  POLLOUT := 0x0004
  POLLERR := 0x0008
  POLLHUP := 0x0010
  POLLRDNORM := 0x0040
  POLLRDBAND := 0x0080
  POLLWRNORM := 0x0100
  POLLWRBAND := 0x0200
  FD_READ := 0x01
  FD_WRITE := 0x02
  FD_OOB := 0x04
  FD_ACCEPT := 0x08
  FD_CONNECT := 0x10
  FD_CLOSE := 0x20
  FD_SETSIZE := 64
  WSAENOTCONN := 10057
  WSAESHUTDOWN := 10058
  WSAECONNRESET := 10054
  WSAECONNABORTED := 10053
  WSAENETRESET := 10052
  ERROR_BROKEN_PIPE := 109
  FILE_TYPE_PIPE := 3
  FILE_TYPE_CHAR := 2
  WAIT_OBJECT_0 := 0
  INFINITE := 0xFFFFFFFF
  KEY_EVENT := 1
  INT_MAX := 2147483647
  EINVAL := 22
  EBADF := 9
  LOCK_SH := 1
  LOCK_EX := 2
  LOCK_UN := 8
  LOCK_NB := 4
  LOCKFILE_EXCLUSIVE_LOCK := 2
  LOCKFILE_FAIL_IMMEDIATELY := 1
  INVALID_HANDLE_VALUE := -1

/-- `POLLIN | POLLRDNORM`. -/
def Consts.rdMask (c : Consts) : Nat := c.POLLIN ||| c.POLLRDNORM

/-- `POLLOUT | POLLWRNORM | POLLWRBAND`. -/
def Consts.wrMask (c : Consts) : Nat := c.POLLOUT ||| c.POLLWRNORM ||| c.POLLWRBAND

/-- `POLLPRI | POLLRDBAND`. -/
def Consts.priMask (c : Consts) : Nat := c.POLLPRI ||| c.POLLRDBAND

/-- The mask tested by the classification loop of `poll`:
`POLLIN | POLLRDNORM | POLLOUT | POLLWRNORM | POLLWRBAND | POLLPRI | POLLRDBAND`. -/
def Consts.classifyMask (c : Consts) : Nat :=
  c.POLLIN ||| c.POLLRDNORM ||| c.POLLOUT ||| c.POLLWRNORM ||| c.POLLWRBAND
    ||| c.POLLPRI ||| c.POLLRDBAND

/-- The mask tested by the result loop of `poll`:
`POLLIN | POLLRDNORM | POLLOUT | POLLWRNORM | POLLWRBAND`. -/
def Consts.resultMask (c : Consts) : Nat :=
  c.POLLIN ||| c.POLLRDNORM ||| c.POLLOUT ||| c.POLLWRNORM ||| c.POLLWRBAND

/-! ## Machine integers -/

/-- Promotion of a `short` (16-bit pattern) to `int` (32-bit pattern). -/
def sext16 (x : Nat) : Nat :=
  if (x % 65536).testBit 15 then (x % 65536) ||| 0xFFFF0000 else x % 65536

/-- Conversion of an `int` (32-bit pattern) to `short` (16-bit pattern). -/
def toShort (x : Nat) : Nat := x % 65536

/-- The operator `~` on a 32-bit pattern. -/
def not32 (x : Nat) : Nat := 0xFFFFFFFF ^^^ (x % 4294967296)

/-! ## The environment -/

/-- A native `HANDLE` (or `SOCKET`), as the integer value of the pointer;
`NULL` is `0`. -/
abbrev HANDLE := Int

/-- An `fd_set` of winsock: the array of sockets it holds. -/
abbrev fd_set := List HANDLE

/-- The part of an `INPUT_RECORD` that `windows_compute_revents` reads. -/
structure INPUT_RECORD where
  EventType : Nat
  bKeyDown : Bool
deriving DecidableEq, Repr

/-- Outcome of `PeekNamedPipe` followed, when it fails, by `GetLastError`. -/
inductive PeekResult where
  | ok (avail : Nat)
  | failed (lastError : Nat)
deriving DecidableEq, Repr

/-- The native calls issued by `poll` and `flock`, with the arguments that
matter. -/
inductive Call where
  | clock
  | CreateEvent
  | get_osfhandle (fd : Int)
  | GetConsoleMode (h : HANDLE)
  | WSAEnumNetworkEvents (h : HANDLE)
  | WSAEventSelect (h : HANDLE) (hEventObject : HANDLE) (lNetworkEvents : Nat)
  | GetFileType (h : HANDLE)
  | PeekNamedPipe (h : HANDLE)
  | GetNumberOfConsoleInputEvents (h : HANDLE)
  | PeekConsoleInputW (h : HANDLE) (nbuffer : Nat)
  | WaitForSingleObject (h : HANDLE) (ms : Nat)
  | select (rfds wfds xfds : fd_set)
  | MsgWaitForMultipleObjects (handles : List HANDLE) (wait_timeout : Nat)
  | PeekMessage
  | TranslateMessage
  | DispatchMessage
  | recv (h : HANDLE)
  | SleepEx (ms : Nat)
  | GetFileSize (h : HANDLE)
  | LockFileEx (h : HANDLE) (flags : Nat) (offsetLow offsetHigh : Nat)
      (nbytesLow nbytesHigh : Nat)
  | UnlockFile (h : HANDLE) (offsetLow offsetHigh : Nat) (nbytesLow nbytesHigh : Nat)
  | err_win_to_posix
deriving DecidableEq, Repr

/-- A deterministic operating system over states `σ`.  Each field gives the
answer of one native call in a state; `next` is the state after a call. -/
structure Native (σ : Type) where
  next : σ → Call → σ
  /-- Value returned by `clock ()`. -/
  clock : σ → Int
  /-- Handle returned by `CreateEvent (NULL, FALSE, FALSE, NULL)`. -/
  CreateEvent : σ → HANDLE
  /-- Value of `_get_osfhandle (fd)`. -/
  get_osfhandle : σ → Int → HANDLE
  /-- Whether `GetConsoleMode (h, &mode) != 0`. -/
  GetConsoleMode : σ → HANDLE → Bool
  /-- The value `WSAEnumNetworkEvents` stores in `lNetworkEvents`, or `none`
  when it fails and leaves the structure untouched. -/
  WSAEnumNetworkEvents : σ → HANDLE → Option Nat
  /-- Value of `GetFileType (h)`. -/
  GetFileType : σ → HANDLE → Nat
  /-- Outcome of `PeekNamedPipe (h, NULL, 0, NULL, &avail, NULL)`. -/
  PeekNamedPipe : σ → HANDLE → PeekResult
  /-- The count stored by `GetNumberOfConsoleInputEvents`, or `none` when it
  returns `FALSE`. -/
  GetNumberOfConsoleInputEvents : σ → HANDLE → Option Nat
  /-- The records read by `PeekConsoleInputW` (their number is `avail`), or
  `none` when it returns `FALSE`. -/
  PeekConsoleInputW : σ → HANDLE → Nat → Option (List INPUT_RECORD)
  /-- Value of `WaitForSingleObject (h, 0)`. -/
  WaitForSingleObject : σ → HANDLE → Nat
  /-- Value of `select` and the three sets as it leaves them. -/
  select : σ → fd_set → fd_set → fd_set → Int × fd_set × fd_set × fd_set
  /-- Value of `MsgWaitForMultipleObjects` on the handles and the timeout. -/
  MsgWaitForMultipleObjects : σ → List HANDLE → Nat → Nat
  /-- Whether `PeekMessage (&msg, NULL, 0, 0, PM_REMOVE) != 0`. -/
  PeekMessage : σ → Bool
  /-- Value `r` of `recv (h, data, 64, MSG_PEEK)` and the value of
  `WSAGetLastError ()` right after it. -/
  recv : σ → HANDLE → Int × Int
  /-- Low and high halves delivered by `GetFileSize (h, &upper)`. -/
  GetFileSize : σ → HANDLE → Nat × Nat
  /-- Whether `LockFileEx` returns non-zero. -/
  LockFileEx : σ → HANDLE → Nat → Nat → Nat → Bool
  /-- Whether `UnlockFile` returns non-zero. -/
  UnlockFile : σ → HANDLE → Nat → Nat → Bool
  /-- Value of `err_win_to_posix ()`. -/
  err_win_to_posix : σ → Int

/-- The environment state together with the log of the native calls made so
far, oldest first. -/
structure Sys (σ : Type) where
  w : σ
  log : List Call

/-- Record a native call: advance the environment and extend the log. -/
def Sys.call {σ : Type} (N : Native σ) (s : Sys σ) (k : Call) : Sys σ :=
  ⟨N.next s.w k, s.log ++ [k]⟩

/-- How a run of the code ends. -/
inductive Outcome (σ : Type) (α : Type) where
  /-- The code ran to its end and produced `a`. -/
  | ret (a : α)
  /-- The code ran into undefined behaviour or a failed assertion. -/
  | fault (s : Sys σ)
  /-- The fuel ran out inside a loop. -/
  | nofuel (s : Sys σ)

/-- Sequencing of outcomes. -/
def Outcome.bind {σ α β : Type} (o : Outcome σ α) (f : α → Outcome σ β) : Outcome σ β :=
  match o with
  | .ret a => f a
  | .fault s => .fault s
  | .nofuel s => .nofuel s

/-- The log of native calls at the end of a run, given where to find it in a
result. -/
def Outcome.logOf {σ α : Type} (sysOf : α → Sys σ) : Outcome σ α → List Call
  | .ret a => (sysOf a).log
  | .fault s => s.log
  | .nofuel s => s.log

/-! ## `win32/poll.c` -/

/-- One entry of the table given to `poll`: `struct pollfd`.  `events` and
`revents` hold the 16-bit pattern of the `short`. -/
structure pollfd where
  fd : Int
  events : Nat
  revents : Nat
deriving DecidableEq, Repr

/-- `IsConsoleHandle (h)`. -/
def IsConsoleHandle {σ : Type} (N : Native σ) (s : Sys σ) (h : HANDLE) : Bool × Sys σ :=
  (N.GetConsoleMode s.w h, s.call N (.GetConsoleMode h))

/-- `IsSocketHandle (h)`: a console handle is not a socket; otherwise the
handle is a socket when `WSAEnumNetworkEvents` overwrites the marker
`0xDEADBEEF`. -/
def IsSocketHandle {σ : Type} (N : Native σ) (s : Sys σ) (h : HANDLE) : Bool × Sys σ :=
  let (isConsole, s1) := IsConsoleHandle N s h
  if isConsole then (false, s1)
  else
    let marker : Nat := 0xDEADBEEF
    let lNetworkEvents := (N.WSAEnumNetworkEvents s1.w h).getD marker
    (decide (lNetworkEvents ≠ 0xDEADBEEF), s1.call N (.WSAEnumNetworkEvents h))

/-- The `default:` case of `windows_compute_revents`. -/
def windows_compute_revents_default {σ : Type} (c : Consts) (N : Native σ) (s : Sys σ)
    (h : HANDLE) (sought : Nat) : Nat × Nat × Sys σ :=
  let ret := N.WaitForSingleObject s.w h
  let s1 := s.call N (.WaitForSingleObject h 0)
  if ret = c.WAIT_OBJECT_0 then (sought &&& not32 (c.POLLPRI ||| c.POLLRDBAND), sought, s1)
  else
    (sought &&& (c.POLLIN ||| c.POLLRDNORM ||| c.POLLOUT ||| c.POLLWRNORM ||| c.POLLWRBAND),
      sought, s1)

/-- `windows_compute_revents (h, p_sought)`: the returned bits, the value left
in `*p_sought`, and the system afterwards. -/
def windows_compute_revents {σ : Type} (c : Consts) (N : Native σ) (s : Sys σ)
    (h : HANDLE) (sought : Nat) : Nat × Nat × Sys σ :=
  let fileType := N.GetFileType s.w h
  let s1 := s.call N (.GetFileType h)
  if fileType = c.FILE_TYPE_PIPE then
    let happened : Nat := 0
    let peek := N.PeekNamedPipe s1.w h
    let s2 := s1.call N (.PeekNamedPipe h)
    match peek with
    | .ok avail =>
      if avail ≠ 0 then (happened ||| (sought &&& (c.POLLIN ||| c.POLLRDNORM)), sought, s2)
      else (happened, sought, s2)
    | .failed lastError =>
      if lastError = c.ERROR_BROKEN_PIPE then (happened ||| c.POLLHUP, sought, s2)
      else (happened ||| (sought &&& (c.POLLOUT ||| c.POLLWRNORM ||| c.POLLWRBAND)), sought, s2)
  else if fileType = c.FILE_TYPE_CHAR then
    let (isConsole, s2) := IsConsoleHandle N s1 h
    if isConsole then
      let bRet := N.GetNumberOfConsoleInputEvents s2.w h
      let s3 := s2.call N (.GetNumberOfConsoleInputEvents h)
      match bRet with
      | some nbuffer =>
        let sought1 := sought &&& (c.POLLIN ||| c.POLLRDNORM)
        if nbuffer = 0 then (0, sought1, s3)
        else if sought1 = 0 then (0, sought1, s3)
        else
          let peeked := N.PeekConsoleInputW s3.w h nbuffer
          let s4 := s3.call N (.PeekConsoleInputW h nbuffer)
          match peeked with
          | none => (c.POLLHUP, sought1, s4)
          | some irbuffer =>
            if irbuffer.length = 0 then (c.POLLHUP, sought1, s4)
            else if irbuffer.any (fun r => decide (r.EventType = c.KEY_EVENT) && r.bKeyDown)
            then (sought1, sought1, s4)
            else (0, sought1, s4)
      | none =>
        let sought1 := sought &&& (c.POLLOUT ||| c.POLLWRNORM ||| c.POLLWRBAND)
        (sought1, sought1, s3)
    else windows_compute_revents_default c N s2 h sought
  else windows_compute_revents_default c N s1 h sought

/-- The first `if ... else if ...` of `windows_compute_revents_socket`: the
bits derived from `FD_READ`, `FD_ACCEPT` and `FD_CLOSE`, with the peek
`recv (h, data, sizeof (data), MSG_PEEK)` when it is needed. -/
def socketReadSide {σ : Type} (c : Consts) (N : Native σ) (s : Sys σ)
    (h : HANDLE) (sought : Nat) (lNetworkEvents : Nat) (happened : Nat) : Nat × Sys σ :=
  if lNetworkEvents &&& (c.FD_READ ||| c.FD_ACCEPT ||| c.FD_CLOSE) = c.FD_ACCEPT then
    (happened ||| ((c.POLLIN ||| c.POLLRDNORM) &&& sought), s)
  else if lNetworkEvents &&& (c.FD_READ ||| c.FD_ACCEPT ||| c.FD_CLOSE) ≠ 0 then
    let r := (N.recv s.w h).1
    let error := (N.recv s.w h).2
    let s1 := s.call N (.recv h)
    if 0 < r ∨ error = c.WSAENOTCONN then
      (happened ||| ((c.POLLIN ||| c.POLLRDNORM) &&& sought), s1)
    else if r = 0 ∨ error = c.WSAESHUTDOWN ∨ error = c.WSAECONNRESET
        ∨ error = c.WSAECONNABORTED ∨ error = c.WSAENETRESET then
      (happened ||| c.POLLHUP, s1)
    else (happened ||| c.POLLERR, s1)
  else (happened, s)

/-- `windows_compute_revents_socket (h, sought, lNetworkEvents)`. -/
def windows_compute_revents_socket {σ : Type} (c : Consts) (N : Native σ) (s : Sys σ)
    (h : HANDLE) (sought : Nat) (lNetworkEvents : Nat) : Nat × Sys σ :=
  let happened : Nat := 0
  let rd := socketReadSide c N s h sought lNetworkEvents happened
  let happened := rd.1
  let happened :=
    if lNetworkEvents &&& (c.FD_WRITE ||| c.FD_CONNECT) ≠ 0 then
      happened ||| ((c.POLLOUT ||| c.POLLWRNORM ||| c.POLLWRBAND) &&& sought)
    else happened
  let happened :=
    if lNetworkEvents &&& c.FD_OOB ≠ 0 then
      happened ||| ((c.POLLPRI ||| c.POLLRDBAND) &&& sought)
    else happened
  (happened, rd.2)

/-- The winsock macro `FD_SET (h, set)`: append `h` unless it is already in
the set or the set is full. -/
def FD_SET (c : Consts) (h : HANDLE) (set : fd_set) : fd_set :=
  if h ∈ set then set
  else if set.length < c.FD_SETSIZE then set ++ [h]
  else set

/-- The winsock macro `FD_ISSET (h, set)`. -/
def FD_ISSET (h : HANDLE) (set : fd_set) : Bool := decide (h ∈ set)

/-- The locals of `poll` that the classification loop updates.  `nhandles` is
the length of `handle_array`. -/
structure CState (σ : Type) where
  sys : Sys σ
  handle_array : List HANDLE
  rfds : fd_set
  wfds : fd_set
  xfds : fd_set
  timeout : Int

/-- The event mask `requested` that the classification loop computes for a
socket. -/
def requestedEvents (c : Consts) (sought : Nat) : Nat :=
  let requested := c.FD_CLOSE
  let requested :=
    if sought &&& (c.POLLIN ||| c.POLLRDNORM) ≠ 0 then requested ||| (c.FD_READ ||| c.FD_ACCEPT)
    else requested
  let requested :=
    if sought &&& (c.POLLOUT ||| c.POLLWRNORM ||| c.POLLWRBAND) ≠ 0 then
      requested ||| (c.FD_WRITE ||| c.FD_CONNECT)
    else requested
  let requested :=
    if sought &&& (c.POLLPRI ||| c.POLLRDBAND) ≠ 0 then requested ||| c.FD_OOB
    else requested
  requested

/-- One iteration of the loop "Classify socket handles and create fd sets". -/
def classifyEntry {σ : Type} (c : Consts) (N : Native σ) (hEvent : HANDLE)
    (p : pollfd) (st : CState σ) : Outcome σ (pollfd × CState σ) :=
  let sought := sext16 p.events
  let p0 : pollfd := { p with revents := 0 }
  if p.fd < 0 then .ret (p0, st)
  else if sought &&& c.classifyMask = 0 then .ret (p0, st)
  else
    let h := N.get_osfhandle st.sys.w p.fd
    let s1 := st.sys.call N (.get_osfhandle p.fd)
    if h = 0 then .fault s1
    else
      let sock := IsSocketHandle N s1 h
      if sock.1 then
        let requested := requestedEvents c sought
        let rfds :=
          if sought &&& (c.POLLIN ||| c.POLLRDNORM) ≠ 0 then FD_SET c h st.rfds else st.rfds
        let wfds :=
          if sought &&& (c.POLLOUT ||| c.POLLWRNORM ||| c.POLLWRBAND) ≠ 0 then
            FD_SET c h st.wfds
          else st.wfds
        let xfds :=
          if sought &&& (c.POLLPRI ||| c.POLLRDBAND) ≠ 0 then FD_SET c h st.xfds else st.xfds
        let s3 :=
          if requested ≠ 0 then sock.2.call N (.WSAEventSelect h hEvent requested) else sock.2
        .ret (p0, { st with sys := s3, rfds := rfds, wfds := wfds, xfds := xfds })
      else
        let probe := windows_compute_revents c N sock.2 h sought
        let sought1 := probe.2.1
        let p1 : pollfd := { p with revents := toShort probe.1 }
        if sought1 ≠ 0 ∧ ¬ st.handle_array.length < c.FD_SETSIZE + 2 then .fault probe.2.2
        else
          let handle_array :=
            if sought1 ≠ 0 then st.handle_array ++ [h] else st.handle_array
          let timeout := if p1.revents ≠ 0 then 0 else st.timeout
          .ret (p1,
            { st with sys := probe.2.2, handle_array := handle_array, timeout := timeout })

/-- The classification loop over the entries `pfd[0 .. nfd-1]` that exist. -/
def classify {σ : Type} (c : Consts) (N : Native σ) (hEvent : HANDLE) :
    List pollfd → CState σ → Outcome σ (List pollfd × CState σ)
  | [], st => .ret ([], st)
  | p :: ps, st =>
    (classifyEntry c N hEvent p st).bind fun r =>
      (classify c N hEvent ps r.2).bind fun rs => .ret (r.1 :: rs.1, rs.2)

/-- The loop `while (PeekMessage (...) != 0) { TranslateMessage; DispatchMessage; }`. -/
def drainMessages {σ : Type} (N : Native σ) : Nat → Sys σ → Outcome σ (Sys σ)
  | 0, s => .nofuel s
  | fuel + 1, s =>
    let bRet := N.PeekMessage s.w
    let s1 := s.call N .PeekMessage
    if bRet then
      drainMessages N fuel ((s1.call N .TranslateMessage).call N .DispatchMessage)
    else .ret s1

/-- The loop `for (;;)` around `MsgWaitForMultipleObjects`. -/
def waitLoop {σ : Type} (c : Consts) (N : Native σ) (handles : List HANDLE)
    (wait_timeout : Nat) (drainFuel : Nat) : Nat → Sys σ → Outcome σ (Sys σ)
  | 0, s => .nofuel s
  | fuel + 1, s =>
    let ret := N.MsgWaitForMultipleObjects s.w handles wait_timeout
    let s1 := s.call N (.MsgWaitForMultipleObjects handles wait_timeout)
    if ret = c.WAIT_OBJECT_0 + handles.length then
      (drainMessages N drainFuel s1).bind fun s2 =>
        waitLoop c N handles wait_timeout drainFuel fuel s2
    else .ret s1

/-- The locals of `poll` that the result loop updates. -/
structure RState (σ : Type) where
  sys : Sys σ
  nhandles : Nat
  lNetworkEvents : Nat
  rc : Nat

/-- The value of `ev.lNetworkEvents` after the result loop has added the
events that `select` reported for the socket `h`. -/
def mergeSelected (c : Consts) (h : HANDLE) (rfds wfds xfds : fd_set) (ev : Nat) : Nat :=
  let ev :=
    if FD_ISSET h rfds ∧ ev &&& (c.FD_READ ||| c.FD_ACCEPT) = 0 then
      ev ||| (c.FD_READ ||| c.FD_ACCEPT)
    else ev
  let ev := if FD_ISSET h wfds then ev ||| (c.FD_WRITE ||| c.FD_CONNECT) else ev
  let ev := if FD_ISSET h xfds then ev ||| c.FD_OOB else ev
  ev

/-- The statement `if ((pfd[i].revents |= happened) != 0) rc++;`. -/
def storeResult {σ : Type} (p : pollfd) (st : RState σ) (happened : Nat) : pollfd × RState σ :=
  let revents := toShort (sext16 p.revents ||| happened)
  ({ p with revents := revents }, { st with rc := if revents ≠ 0 then st.rc + 1 else st.rc })

/-- One iteration of the result loop.  `handle_array` is the array with its
sentinel. -/
def resultEntry {σ : Type} (c : Consts) (N : Native σ) (handle_array : List HANDLE)
    (rfds wfds xfds : fd_set) (p : pollfd) (st : RState σ) : Outcome σ (pollfd × RState σ) :=
  if p.fd < 0 then .ret (p, st)
  else if sext16 p.events &&& c.resultMask = 0 then .ret (p, st)
  else
    let h := N.get_osfhandle st.sys.w p.fd
    let s1 := st.sys.call N (.get_osfhandle p.fd)
    match handle_array[st.nhandles]? with
    | none => .fault s1
    | some slot =>
      if h ≠ slot then
        let ev := (N.WSAEnumNetworkEvents s1.w h).getD st.lNetworkEvents
        let s2 := s1.call N (.WSAEnumNetworkEvents h)
        let s3 := s2.call N (.WSAEventSelect h 0 0)
        let ev := mergeSelected c h rfds wfds xfds ev
        let r := windows_compute_revents_socket c N s3 h (sext16 p.events) ev
        .ret (storeResult p { st with sys := r.2, lNetworkEvents := ev } r.1)
      else
        let sought := sext16 p.events
        let r := windows_compute_revents c N s1 h sought
        .ret (storeResult p { st with sys := r.2.2, nhandles := st.nhandles + 1 } r.1)

/-- The result loop over the entries `pfd[0 .. nfd-1]`. -/
def results {σ : Type} (c : Consts) (N : Native σ) (handle_array : List HANDLE)
    (rfds wfds xfds : fd_set) :
    List pollfd → RState σ → Outcome σ (List pollfd × RState σ)
  | [], st => .ret ([], st)
  | p :: ps, st =>
    (resultEntry c N handle_array rfds wfds xfds p st).bind fun r =>
      (results c N handle_array rfds wfds xfds ps r.2).bind fun rs =>
        .ret (r.1 :: rs.1, rs.2)

/-- What `poll` keeps from one pass of `restart:` to the next: the system,
the entries `pfd[0 .. nfd-1]`, and the locals `real_timeout` and
`ev.lNetworkEvents`. -/
structure PollState (σ : Type) where
  sys : Sys σ
  entries : List pollfd
  real_timeout : Nat
  lNetworkEvents : Nat

/-- The state at the end of one pass, just before the test that decides
between `goto restart` and `return rc`. -/
structure PassOut (σ : Type) where
  sys : Sys σ
  entries : List pollfd
  real_timeout : Nat
  lNetworkEvents : Nat
  rc : Nat
  nhandles : Nat

/-- The block "How much is left to wait?" at the label `restart:`: the value
of `real_timeout` and the system afterwards. -/
def remaining {σ : Type} (N : Native σ) (tend : Int) (save_timeout : Int)
    (st : PollState σ) : Nat × Sys σ :=
  let timeout := save_timeout
  if timeout ≠ INFTIM then
    let now := N.clock st.sys.w
    (if tend > now then ((tend - now) % 4294967296).toNat else 0, st.sys.call N .clock)
  else (st.real_timeout, st.sys)

/-- The value of `wait_timeout`, from the value `n` of the first `select` and
the value of `timeout` after the classification loop. -/
def waitTimeout (c : Consts) (n : Int) (timeout : Int) : Nat :=
  if 0 < n then 0
  else if timeout = INFTIM then c.INFINITE
  else (timeout % 4294967296).toNat

/-- The statement `if (poll_again) select (0, &rfds, &wfds, &xfds, &tv0);`,
where `poll_again` is set when the first `select` returned `n <= 0`: the three
sets and the system afterwards. -/
def selectAgain {σ : Type} (N : Native σ) (n : Int) (rfds wfds xfds : fd_set) (s : Sys σ) :
    fd_set × fd_set × fd_set × Sys σ :=
  if 0 < n then (rfds, wfds, xfds, s)
  else ((N.select s.w rfds wfds xfds).2.1, (N.select s.w rfds wfds xfds).2.2.1,
    (N.select s.w rfds wfds xfds).2.2.2, s.call N (.select rfds wfds xfds))

/-- One pass of `poll`, from the label `restart:` to the end of the result
loop.  `overrun` says that the table is shorter than `nfd` (or absent), so
that the classification loop reads past it. -/
def pollPass {σ : Type} (c : Consts) (N : Native σ) (hEvent : HANDLE) (tend : Int)
    (save_timeout : Int) (overrun : Bool) (waitFuel : Nat) (st : PollState σ) :
    Outcome σ (PassOut σ) :=
  let timeout := save_timeout
  let start := remaining N tend save_timeout st
  let real_timeout := start.1
  let handle_array : List HANDLE := [hEvent]
  (classify c N hEvent st.entries ⟨start.2, handle_array, [], [], [], timeout⟩).bind fun cl =>
    let cs := cl.2
    if overrun then .fault cs.sys
    else
      let sel := N.select cs.sys.w cs.rfds cs.wfds cs.xfds
      let s2 := cs.sys.call N (.select cs.rfds cs.wfds cs.xfds)
      let wait_timeout := waitTimeout c sel.1 cs.timeout
      (waitLoop c N cs.handle_array wait_timeout waitFuel waitFuel s2).bind fun s3 =>
        let again := selectAgain N sel.1 sel.2.1 sel.2.2.1 sel.2.2.2 s3
        if ¬ cs.handle_array.length < c.FD_SETSIZE + 2 then .fault again.2.2.2
        else
          let handle_array := cs.handle_array ++ [0]
          (results c N handle_array again.1 again.2.1 again.2.2.1 cl.1
              ⟨again.2.2.2, 1, st.lNetworkEvents, 0⟩).bind fun rl =>
            .ret ⟨rl.2.sys, rl.1, real_timeout, rl.2.lNetworkEvents, rl.2.rc, rl.2.nhandles⟩

/-- The passes of `poll`: after a pass, either `SleepEx (1, TRUE); goto restart`
or `return rc`. -/
def pollFrom {σ : Type} (c : Consts) (N : Native σ) (hEvent : HANDLE) (tend : Int)
    (save_timeout : Int) (overrun : Bool) (waitFuel : Nat) :
    Nat → PollState σ → Outcome σ (PassOut σ)
  | 0, st => .nofuel st.sys
  | fuel + 1, st =>
    (pollPass c N hEvent tend save_timeout overrun waitFuel st).bind fun out =>
      if out.rc = 0 ∧ (save_timeout = INFTIM ∨ (out.real_timeout ≠ 0 ∧ out.nhandles > 1)) then
        pollFrom c N hEvent tend save_timeout overrun waitFuel fuel
          ⟨out.sys.call N (.SleepEx 1), out.entries, out.real_timeout, out.lNetworkEvents⟩
      else .ret out

/-- The state of the process that `poll` and `flock` read and write besides
their arguments: the system, the static `hEvent` of `poll`, `errno`, and the
indeterminate initial value of the local `ev.lNetworkEvents` of `poll`. -/
structure Proc (σ : Type) where
  sys : Sys σ
  hEvent : HANDLE
  errno : Int
  stack_ev : Nat

/-- What a call of `poll` leaves behind when it returns. -/
structure PollResult (σ : Type) where
  ret : Int
  errno : Int
  pfd : Option (List pollfd)
  hEvent : HANDLE
  sys : Sys σ

/-- The entries `pfd[0 .. nfd-1]` that exist. -/
def entriesOf (pfd : Option (List pollfd)) (nfd : Nat) : List pollfd :=
  match pfd with
  | none => []
  | some l => l.take nfd

/-- Whether reading `pfd[0 .. nfd-1]` leaves the table: the table is absent
(`NULL`) or shorter than `nfd`. -/
def overrunOf (pfd : Option (List pollfd)) (nfd : Nat) : Bool :=
  match pfd with
  | none => decide (0 < nfd)
  | some l => decide (l.length < nfd)

/-- The table after the entries `pfd[0 .. nfd-1]` have been replaced. -/
def storeEntries (pfd : Option (List pollfd)) (nfd : Nat) (entries : List pollfd) :
    Option (List pollfd) :=
  match pfd with
  | none => none
  | some l => some (entries ++ l.drop nfd)

/-- The Windows-native `poll (pfd, nfd, timeout)`.  `fuel` bounds the number
of passes and, in every pass, the number of rounds of each message loop. -/
def poll {σ : Type} (c : Consts) (N : Native σ) (pr : Proc σ)
    (pfd : Option (List pollfd)) (nfd : Nat) (timeout : Int) (fuel : Nat) :
    Outcome σ (PollResult σ) :=
  let real_timeout : Nat := 0
  let save_timeout := timeout
  let tend := N.clock pr.sys.w + timeout
  let s1 := pr.sys.call N .clock
  if nfd > c.INT_MAX ∨ timeout < -1 then .ret ⟨-1, c.EINVAL, pfd, pr.hEvent, s1⟩
  else
    let hEvent := if pr.hEvent = 0 then N.CreateEvent s1.w else pr.hEvent
    let s2 := if pr.hEvent = 0 then s1.call N .CreateEvent else s1
    (pollFrom c N hEvent tend save_timeout (overrunOf pfd nfd) fuel fuel
        ⟨s2, entriesOf pfd nfd, real_timeout, pr.stack_ev⟩).bind fun out =>
      .ret ⟨out.rc, pr.errno, storeEntries pfd nfd out.entries, hEvent, out.sys⟩

/-! ## `win32/flock.c` -/

/-- `file_size (h, &lower, &upper)`: always reports success. -/
def file_size {σ : Type} (N : Native σ) (s : Sys σ) (h : HANDLE) : Bool × Nat × Nat × Sys σ :=
  let size := N.GetFileSize s.w h
  (true, size.1, size.2, s.call N (.GetFileSize h))

/-- `do_lock (h, non_blocking, exclusive)`; the two flags are C truth values. -/
def do_lock {σ : Type} (c : Consts) (N : Native σ) (s : Sys σ) (h : HANDLE)
    (non_blocking : Nat) (exclusive : Nat) : Bool × Sys σ :=
  let flags : Nat := 0
  let (res, size_lower, size_upper, s1) := file_size N s h
  if ¬ res then (false, s1)
  else
    let flags := if non_blocking ≠ 0 then flags ||| c.LOCKFILE_FAIL_IMMEDIATELY else flags
    let flags := if exclusive ≠ 0 then flags ||| c.LOCKFILE_EXCLUSIVE_LOCK else flags
    (N.LockFileEx s1.w h flags size_lower size_upper,
      s1.call N (.LockFileEx h flags 0 0 size_lower size_upper))

/-- `do_unlock (h)`. -/
def do_unlock {σ : Type} (N : Native σ) (s : Sys σ) (h : HANDLE) : Bool × Sys σ :=
  let (res, size_lower, size_upper, s1) := file_size N s h
  if ¬ res then (false, s1)
  else
    (N.UnlockFile s1.w h size_lower size_upper,
      s1.call N (.UnlockFile h 0 0 size_lower size_upper))

/-- What a call of `flock` leaves behind. -/
structure FlockResult (σ : Type) where
  ret : Int
  errno : Int
  sys : Sys σ

/-- The `switch (operation)` of `flock`, entered with `LOCK_NB` already
cleared from `operation`: the value `res` and the system after the case that
ran, or `none` for the `default:` case. -/
def flockSwitch {σ : Type} (c : Consts) (N : Native σ) (s : Sys σ) (h : HANDLE)
    (non_blocking : Nat) (operation : Nat) : Option (Bool × Sys σ) :=
  if operation = c.LOCK_SH then some (do_lock c N s h non_blocking 0)
  else if operation = c.LOCK_EX then some (do_lock c N s h non_blocking 1)
  else if operation = c.LOCK_UN then some (do_unlock N s h)
  else none

/-- The function `flock (fd, operation)`; `operation` is the 32-bit pattern of
the `int`. -/
def flock {σ : Type} (c : Consts) (N : Native σ) (pr : Proc σ) (fd : Int) (operation : Nat) :
    FlockResult σ :=
  let h := N.get_osfhandle pr.sys.w fd
  let s1 := pr.sys.call N (.get_osfhandle fd)
  if h = c.INVALID_HANDLE_VALUE then ⟨-1, c.EBADF, s1⟩
  else
    let non_blocking := operation &&& c.LOCK_NB
    let operation := operation &&& not32 c.LOCK_NB
    match flockSwitch c N s1 h non_blocking operation with
    | none => ⟨-1, c.EINVAL, s1⟩
    | some (res, s2) =>
      if ¬ res then ⟨-1, N.err_win_to_posix s2.w, s2.call N .err_win_to_posix⟩
      else ⟨0, pr.errno, s2⟩

/-! ## Example environments -/

/-- The kinds of handle of the example environment. -/
inductive Kind where
  | brokenPipe
  | idlePipe
  | closedSocket
  | file
deriving DecidableEq, Repr

/-- An example environment over the number of `clock` ticks elapsed.  The
handle of descriptor `fd` is `fd + 100`; `kind` gives each handle's nature;
no window message ever arrives; `select` finds nothing; every `clock` call
advances the time by `tick`. -/
def exampleNative (kind : HANDLE → Kind) (tick : Nat) : Native Nat where
  next := fun t k => if k = Call.clock then t + tick else t
  clock := fun t => t
  CreateEvent := fun _ => 99
  get_osfhandle := fun _ fd => fd + 100
  GetConsoleMode := fun _ _ => false
  WSAEnumNetworkEvents := fun _ h =>
    match kind h with
    | .closedSocket => some stdConsts.FD_CLOSE
    | _ => none
  GetFileType := fun _ h =>
    match kind h with
    | .file => 1
    | _ => stdConsts.FILE_TYPE_PIPE
  PeekNamedPipe := fun _ h =>
    match kind h with
    | .brokenPipe => .failed stdConsts.ERROR_BROKEN_PIPE
    | .idlePipe => .ok 0
    | _ => .failed 6
  GetNumberOfConsoleInputEvents := fun _ _ => none
  PeekConsoleInputW := fun _ _ _ => none
  WaitForSingleObject := fun _ _ => 0
  select := fun _ _ _ _ => (0, [], [], [])
  MsgWaitForMultipleObjects := fun _ _ _ => 258
  PeekMessage := fun _ => false
  recv := fun _ _ => (0, 0)
  GetFileSize := fun _ _ => (4096, 0)
  LockFileEx := fun _ _ _ _ _ => true
  UnlockFile := fun _ _ _ _ => true
  err_win_to_posix := fun _ => 13

/-- An example environment over the time elapsed, in `clock` ticks of one
millisecond.  Every handle is a console input buffer without pending input,
the handle of descriptor `fd` being `fd + 100`; nothing becomes ready, so a
blocking wait lasts for its whole timeout and a sleep for its duration; no
other call takes time. -/
def consoleNative : Native Nat where
  next := fun t k =>
    match k with
    | .MsgWaitForMultipleObjects _ wait_timeout => t + wait_timeout
    | .SleepEx ms => t + ms
    | _ => t
  clock := fun t => t
  CreateEvent := fun _ => 99
  get_osfhandle := fun _ fd => fd + 100
  GetConsoleMode := fun _ _ => true
  WSAEnumNetworkEvents := fun _ _ => none
  GetFileType := fun _ _ => stdConsts.FILE_TYPE_CHAR
  PeekNamedPipe := fun _ _ => .failed 6
  GetNumberOfConsoleInputEvents := fun _ _ => some 0
  PeekConsoleInputW := fun _ _ _ => some []
  WaitForSingleObject := fun _ _ => 258
  select := fun _ _ _ _ => (0, [], [], [])
  MsgWaitForMultipleObjects := fun _ _ _ => 258
  PeekMessage := fun _ => false
  recv := fun _ _ => (-1, 10038)
  GetFileSize := fun _ _ => (0, 0)
  LockFileEx := fun _ _ _ _ _ => false
  UnlockFile := fun _ _ _ _ => false
  err_win_to_posix := fun _ => 22

/-- A process that has not called `poll` yet, at time `0`. -/
def freshProc : Proc Nat := ⟨⟨0, []⟩, 0, 0, 0⟩

/-! ## Vocabulary of the statements -/

/-- An entry with its `revents` field cleared. -/
def clearRevents (p : pollfd) : pollfd := { p with revents := 0 }

/-- Apply a function to the result of a run that returned. -/
def Outcome.map {σ α β : Type} (f : α → β) : Outcome σ α → Outcome σ β
  | .ret a => .ret (f a)
  | .fault s => .fault s
  | .nofuel s => .nofuel s

/-- What the caller of `poll (pfd, nfd, timeout)` can observe when it returns:
the value returned, `errno`, the entries `pfd[0 .. nfd-1]`, the static event
and the system. -/
def observe {σ : Type} (nfd : Nat) (r : PollResult σ) :
    Int × Int × Option (List pollfd) × HANDLE × Sys σ :=
  (r.ret, r.errno, r.pfd.map (List.take nfd), r.hEvent, r.sys)

/-- Native calls that act on the handle of one descriptor: resolving the
handle, probing it, registering or deregistering it for socket events. -/
def Call.onDescriptor : Call → Bool
  | .get_osfhandle _ => true
  | .GetConsoleMode _ => true
  | .WSAEnumNetworkEvents _ => true
  | .WSAEventSelect _ _ _ => true
  | .GetFileType _ => true
  | .PeekNamedPipe _ => true
  | .GetNumberOfConsoleInputEvents _ => true
  | .PeekConsoleInputW _ _ => true
  | .WaitForSingleObject _ _ => true
  | .recv _ => true
  | _ => false

/-- Native calls of the wait loop on the handles `hs` with timeout `wt`. -/
def Call.isWait (hs : List HANDLE) (wt : Nat) (k : Call) : Prop :=
  k = .MsgWaitForMultipleObjects hs wt ∨ k = .PeekMessage ∨ k = .TranslateMessage
    ∨ k = .DispatchMessage

/-- The system `t` is reached from `s` by native calls that all satisfy `P`. -/
def Sys.Extends {σ : Type} (P : Call → Prop) (s t : Sys σ) : Prop :=
  ∃ ext, t.log = s.log ++ ext ∧ ∀ k ∈ ext, P k

/-- The system in which a run ended, whatever its outcome. -/
def Outcome.endSys {σ α : Type} (sysOf : α → Sys σ) : Outcome σ α → Sys σ
  | .ret a => sysOf a
  | .fault s => s
  | .nofuel s => s

/-- The wait loop of `poll` comes to an end within `fuel` rounds whatever the
state it starts in: the environment does not deliver window messages for
ever. -/
def WaitTerminates {σ : Type} (c : Consts) (N : Native σ) (fuel : Nat) : Prop :=
  ∀ (s : Sys σ) (hs : List HANDLE) (wt : Nat), hs.length ≤ c.FD_SETSIZE + 2 →
    ∃ s', waitLoop c N hs wt fuel fuel s = .ret s'

/-- The values that `wait_timeout` can take in a call of `poll` with the
timeout `save_timeout`. -/
def WaitTimeoutOK (c : Consts) (save_timeout : Int) (wt : Nat) : Prop :=
  wt = 0 ∨ (save_timeout = INFTIM ∧ wt = c.INFINITE)
    ∨ (save_timeout ≠ INFTIM ∧ wt = (save_timeout % 4294967296).toNat)

/-- The native calls that one pass of `poll` can make: no `SleepEx`, and a
blocking wait only with one of the timeouts of `WaitTimeoutOK`. -/
def Call.inPass (c : Consts) (save_timeout : Int) (k : Call) : Prop :=
  (∀ ms, k ≠ .SleepEx ms)
    ∧ ∀ hs wt, k = .MsgWaitForMultipleObjects hs wt → WaitTimeoutOK c save_timeout wt

/-- A handle that `IsSocketHandle` rejects in some state of the system. -/
def NonSocket {σ : Type} (N : Native σ) (h : HANDLE) : Prop :=
  ∃ s : Sys σ, (IsSocketHandle N s h).1 = false

/-- Facts about the constants of `poll.h`, `winsock2.h` and `sys/select.h`
that the C code relies on: the event bits fit in a `short`, `POLLHUP` is a
bit of its own, `FD_CLOSE` is not part of `FD_ACCEPT`, and an `fd_set` has
room for a socket. -/
structure Consts.PollSane (c : Consts) : Prop where
  classify_lt : c.classifyMask < 65536
  result_lt : c.resultMask < 65536
  hup_lt : c.POLLHUP < 65536
  hup_ne : c.POLLHUP ≠ 0
  hup_disj : c.POLLHUP &&& (c.rdMask ||| c.wrMask) = 0
  setsize : 1 ≤ c.FD_SETSIZE
  close_ne : c.FD_CLOSE ≠ 0
  accept_close : c.FD_ACCEPT &&& c.FD_CLOSE ≠ c.FD_CLOSE

/-- The descriptor `fd` is, whatever handle it resolves to and for as long as
the call lasts, a pipe that is not a socket and whose peek fails with
`ERROR_BROKEN_PIPE`. -/
def BrokenPipe {σ : Type} (c : Consts) (N : Native σ) (fd : Int) : Prop :=
  ∀ w, (∀ s : Sys σ, (IsSocketHandle N s (N.get_osfhandle w fd)).1 = false)
    ∧ (∀ w', N.GetFileType w' (N.get_osfhandle w fd) = c.FILE_TYPE_PIPE)
    ∧ (∀ w', N.PeekNamedPipe w' (N.get_osfhandle w fd) = .failed c.ERROR_BROKEN_PIPE)

/-- The descriptor `fd` is, whatever handle it resolves to and for as long as
the call lasts, a socket for which `WSAEnumNetworkEvents` reports `FD_CLOSE`
and on which a peek returns 0 bytes without the error `WSAENOTCONN`. -/
def ClosedSocket {σ : Type} (c : Consts) (N : Native σ) (fd : Int) : Prop :=
  ∀ w, N.get_osfhandle w fd ≠ 0
    ∧ (∀ s : Sys σ, (IsSocketHandle N s (N.get_osfhandle w fd)).1 = true)
    ∧ (∀ w', ∃ v, N.WSAEnumNetworkEvents w' (N.get_osfhandle w fd) = some v
        ∧ v &&& c.FD_CLOSE = c.FD_CLOSE)
    ∧ (∀ w', (N.recv w' (N.get_osfhandle w fd)).1 = 0
        ∧ (N.recv w' (N.get_osfhandle w fd)).2 ≠ c.WSAENOTCONN)

/-- An entry that the result loop counts: a valid descriptor, one of the
bits of the result loop requested, and `revents` not zero. -/
def counted (c : Consts) (q : pollfd) : Bool :=
  decide (0 ≤ q.fd) && decide (sext16 q.events &&& c.resultMask ≠ 0) && decide (q.revents ≠ 0)

/-- The flags that `do_lock` passes to `LockFileEx`. -/
def lockFlags (c : Consts) (non_blocking exclusive : Nat) : Nat :=
  let flags : Nat := 0
  let flags := if non_blocking ≠ 0 then flags ||| c.LOCKFILE_FAIL_IMMEDIATELY else flags
  if exclusive ≠ 0 then flags ||| c.LOCKFILE_EXCLUSIVE_LOCK else flags

/-- Facts about the constants of `poll.h` and `winsock2.h` that the reading of
the result of `windows_compute_revents_socket` relies on: the readable bits
are apart from `POLLHUP` and `POLLERR`, the writable and the priority bits are
apart from the readable bits, `POLLHUP` and `POLLERR`, and `FD_ACCEPT` is not
zero. -/
structure Consts.SocketSane (c : Consts) : Prop where
  rd_disj : c.rdMask &&& (c.POLLHUP ||| c.POLLERR) = 0
  wr_disj : (c.wrMask ||| c.priMask)
    &&& (c.POLLIN ||| c.POLLRDNORM ||| c.POLLHUP ||| c.POLLERR) = 0
  accept_ne : c.FD_ACCEPT ≠ 0

/-! ## Theorems -/

theorem Outcome.bind_eq_ret {σ α β : Type} {o : Outcome σ α} {f : α → Outcome σ β} {b : β}
    (h : o.bind f = .ret b) : ∃ a, o = .ret a ∧ f a = .ret b := by
  cases o with
  | ret a => exact ⟨a, rfl, h⟩
  | fault s => simp [Outcome.bind] at h
  | nofuel s => simp [Outcome.bind] at h

@[simp] theorem Outcome.ret_bind {σ α β : Type} (a : α) (f : α → Outcome σ β) :
    (Outcome.ret a : Outcome σ α).bind f = f a := rfl

@[simp] theorem Outcome.fault_bind {σ α β : Type} (s : Sys σ) (f : α → Outcome σ β) :
    (Outcome.fault s : Outcome σ α).bind f = .fault s := rfl

@[simp] theorem Outcome.nofuel_bind {σ α β : Type} (s : Sys σ) (f : α → Outcome σ β) :
    (Outcome.nofuel s : Outcome σ α).bind f = .nofuel s := rfl

/-- Claim C1. `poll` returns -1 exactly when `nfd > INT_MAX` or
`timeout < -1`: a run that returns gives -1 only in that case, and in that case
every run returns at once with -1, `errno = EINVAL`, the table and the static
event untouched, and `clock ()` as the only native call made, so that no
descriptor is resolved, probed or registered. -/
theorem poll_rejects_iff {σ : Type} (c : Consts) (N : Native σ) (pr : Proc σ)
    (pfd : Option (List pollfd)) (nfd : Nat) (timeout : Int) :
    (∀ fuel r, poll c N pr pfd nfd timeout fuel = .ret r →
        (r.ret = -1 ↔ (nfd > c.INT_MAX ∨ timeout < -1)))
    ∧ ((nfd > c.INT_MAX ∨ timeout < -1) → ∀ fuel,
        poll c N pr pfd nfd timeout fuel
          = .ret ⟨-1, c.EINVAL, pfd, pr.hEvent, pr.sys.call N .clock⟩) := by
  constructor
  · intro fuel r h
    by_cases hc : nfd > c.INT_MAX ∨ timeout < -1
    · simp only [poll, if_pos hc] at h
      cases h
      simp [hc]
    · simp only [poll, if_neg hc] at h
      obtain ⟨out, _, h2⟩ := Outcome.bind_eq_ret h
      cases h2
      simp only [hc, iff_false]
      omega
  · intro hc fuel
    simp only [poll, if_pos hc]

/-- Claim C1, witness: the timeout -2 is rejected. -/
theorem poll_rejects_iff_witness :
    poll stdConsts (exampleNative (fun _ => .idlePipe) 1) freshProc
        (some [⟨3, 4, 7⟩]) 1 (-2) 0
      = .ret ⟨-1, 22, some [⟨3, 4, 7⟩], 0, ⟨1, [.clock]⟩⟩ :=
  (poll_rejects_iff stdConsts (exampleNative (fun _ => .idlePipe) 1) freshProc
    (some [⟨3, 4, 7⟩]) 1 (-2)).2 (Or.inr (by decide)) 0

theorem classifyEntry_clear {σ : Type} (c : Consts) (N : Native σ) (hEvent : HANDLE)
    (p : pollfd) (st : CState σ) :
    classifyEntry c N hEvent (clearRevents p) st = classifyEntry c N hEvent p st := rfl

theorem classify_clear {σ : Type} (c : Consts) (N : Native σ) (hEvent : HANDLE)
    (ps : List pollfd) (st : CState σ) :
    classify c N hEvent (ps.map clearRevents) st = classify c N hEvent ps st := by
  induction ps generalizing st with
  | nil => rfl
  | cons p ps ih =>
    simp only [List.map_cons, classify, classifyEntry_clear]
    congr 1
    funext r
    rw [ih]

theorem pollPass_clear {σ : Type} (c : Consts) (N : Native σ) (hEvent : HANDLE) (tend : Int)
    (save_timeout : Int) (overrun : Bool) (waitFuel : Nat) (st : PollState σ) :
    pollPass c N hEvent tend save_timeout overrun waitFuel
        { st with entries := st.entries.map clearRevents }
      = pollPass c N hEvent tend save_timeout overrun waitFuel st := by
  simp only [pollPass, classify_clear, remaining]

theorem pollFrom_clear {σ : Type} (c : Consts) (N : Native σ) (hEvent : HANDLE) (tend : Int)
    (save_timeout : Int) (overrun : Bool) (waitFuel : Nat) (fuel : Nat) (st : PollState σ) :
    pollFrom c N hEvent tend save_timeout overrun waitFuel fuel
        { st with entries := st.entries.map clearRevents }
      = pollFrom c N hEvent tend save_timeout overrun waitFuel fuel st := by
  cases fuel with
  | zero => rfl
  | succ n => simp only [pollFrom, pollPass_clear]

theorem classify_length {σ : Type} (c : Consts) (N : Native σ) (hEvent : HANDLE)
    (ps : List pollfd) (st : CState σ) (r : List pollfd × CState σ)
    (h : classify c N hEvent ps st = .ret r) : r.1.length = ps.length := by
  induction ps generalizing st r with
  | nil => simp only [classify] at h; cases h; rfl
  | cons p ps ih =>
    simp only [classify] at h
    obtain ⟨a, _, h2⟩ := Outcome.bind_eq_ret h
    obtain ⟨b, h3, h4⟩ := Outcome.bind_eq_ret h2
    cases h4
    simp [ih _ _ h3]

theorem results_length {σ : Type} (c : Consts) (N : Native σ) (harr : List HANDLE)
    (rfds wfds xfds : fd_set) (ps : List pollfd) (st : RState σ) (r : List pollfd × RState σ)
    (h : results c N harr rfds wfds xfds ps st = .ret r) : r.1.length = ps.length := by
  induction ps generalizing st r with
  | nil => simp only [results] at h; cases h; rfl
  | cons p ps ih =>
    simp only [results] at h
    obtain ⟨a, _, h2⟩ := Outcome.bind_eq_ret h
    obtain ⟨b, h3, h4⟩ := Outcome.bind_eq_ret h2
    cases h4
    simp [ih _ _ h3]

/-- What it takes for one pass to run to its end. -/
theorem pollPass_ret {σ : Type} {c : Consts} {N : Native σ} {hEvent : HANDLE} {tend : Int}
    {save_timeout : Int} {overrun : Bool} {waitFuel : Nat} {st : PollState σ} {out : PassOut σ}
    (h : pollPass c N hEvent tend save_timeout overrun waitFuel st = .ret out) :
    ∃ cl s3 rl,
      classify c N hEvent st.entries
          ⟨(remaining N tend save_timeout st).2, [hEvent], [], [], [], save_timeout⟩ = .ret cl
      ∧ overrun = false
      ∧ waitLoop c N cl.2.handle_array
          (waitTimeout c (N.select cl.2.sys.w cl.2.rfds cl.2.wfds cl.2.xfds).1 cl.2.timeout)
          waitFuel waitFuel (cl.2.sys.call N (.select cl.2.rfds cl.2.wfds cl.2.xfds)) = .ret s3
      ∧ cl.2.handle_array.length < c.FD_SETSIZE + 2
      ∧ results c N (cl.2.handle_array ++ [0])
          (selectAgain N (N.select cl.2.sys.w cl.2.rfds cl.2.wfds cl.2.xfds).1
            (N.select cl.2.sys.w cl.2.rfds cl.2.wfds cl.2.xfds).2.1
            (N.select cl.2.sys.w cl.2.rfds cl.2.wfds cl.2.xfds).2.2.1
            (N.select cl.2.sys.w cl.2.rfds cl.2.wfds cl.2.xfds).2.2.2 s3).1
          (selectAgain N (N.select cl.2.sys.w cl.2.rfds cl.2.wfds cl.2.xfds).1
            (N.select cl.2.sys.w cl.2.rfds cl.2.wfds cl.2.xfds).2.1
            (N.select cl.2.sys.w cl.2.rfds cl.2.wfds cl.2.xfds).2.2.1
            (N.select cl.2.sys.w cl.2.rfds cl.2.wfds cl.2.xfds).2.2.2 s3).2.1
          (selectAgain N (N.select cl.2.sys.w cl.2.rfds cl.2.wfds cl.2.xfds).1
            (N.select cl.2.sys.w cl.2.rfds cl.2.wfds cl.2.xfds).2.1
            (N.select cl.2.sys.w cl.2.rfds cl.2.wfds cl.2.xfds).2.2.1
            (N.select cl.2.sys.w cl.2.rfds cl.2.wfds cl.2.xfds).2.2.2 s3).2.2.1
          cl.1
          ⟨(selectAgain N (N.select cl.2.sys.w cl.2.rfds cl.2.wfds cl.2.xfds).1
            (N.select cl.2.sys.w cl.2.rfds cl.2.wfds cl.2.xfds).2.1
            (N.select cl.2.sys.w cl.2.rfds cl.2.wfds cl.2.xfds).2.2.1
            (N.select cl.2.sys.w cl.2.rfds cl.2.wfds cl.2.xfds).2.2.2 s3).2.2.2,
            1, st.lNetworkEvents, 0⟩ = .ret rl
      ∧ out = ⟨rl.2.sys, rl.1, (remaining N tend save_timeout st).1, rl.2.lNetworkEvents,
          rl.2.rc, rl.2.nhandles⟩ := by
  simp only [pollPass] at h
  obtain ⟨cl, hcl, h⟩ := Outcome.bind_eq_ret h
  split at h
  · cases h
  · rename_i hov
    obtain ⟨s3, hs3, h⟩ := Outcome.bind_eq_ret h
    split at h
    · cases h
    · rename_i hlen
      obtain ⟨rl, hrl, h⟩ := Outcome.bind_eq_ret h
      cases h
      exact ⟨cl, s3, rl, hcl, by simpa using hov, hs3, by simpa using hlen, hrl, rfl⟩

theorem pollPass_length {σ : Type} (c : Consts) (N : Native σ) (hEvent : HANDLE) (tend : Int)
    (save_timeout : Int) (overrun : Bool) (waitFuel : Nat) (st : PollState σ) (out : PassOut σ)
    (h : pollPass c N hEvent tend save_timeout overrun waitFuel st = .ret out) :
    out.entries.length = st.entries.length := by
  obtain ⟨cl, s3, rl, hcl, _, _, _, hrl, rfl⟩ := pollPass_ret h
  simp only
  rw [results_length _ _ _ _ _ _ _ _ _ hrl, classify_length _ _ _ _ _ _ hcl]

theorem pollFrom_length {σ : Type} (c : Consts) (N : Native σ) (hEvent : HANDLE) (tend : Int)
    (save_timeout : Int) (overrun : Bool) (waitFuel : Nat) (fuel : Nat) (st : PollState σ)
    (out : PassOut σ)
    (h : pollFrom c N hEvent tend save_timeout overrun waitFuel fuel st = .ret out) :
    out.entries.length = st.entries.length := by
  induction fuel generalizing st with
  | zero => simp [pollFrom] at h
  | succ n ih =>
    simp only [pollFrom] at h
    obtain ⟨o1, h1, h⟩ := Outcome.bind_eq_ret h
    have hl := pollPass_length _ _ _ _ _ _ _ _ _ h1
    split at h
    · rw [ih _ h]; exact hl
    · cases h; exact hl

/-- Claim C3. `poll` overwrites `revents`: two calls in the same process
state and environment, with accepted `nfd` and `timeout`, on tables that
differ only in their `revents` fields end in the same way and, when they
return, give the same value, the same `errno`, the same entries
`pfd[0 .. nfd-1]` and the same native calls. -/
theorem poll_overwrites_revents {σ : Type} (c : Consts) (N : Native σ) (pr : Proc σ)
    (l1 l2 : List pollfd) (nfd : Nat) (timeout : Int) (fuel : Nat)
    (hnfd : nfd ≤ c.INT_MAX) (htimeout : -1 ≤ timeout)
    (hsame : l1.map clearRevents = l2.map clearRevents) :
    (poll c N pr (some l1) nfd timeout fuel).map (observe nfd)
      = (poll c N pr (some l2) nfd timeout fuel).map (observe nfd) := by
  have hc : ¬ (nfd > c.INT_MAX ∨ timeout < -1) := by omega
  have hlen : l1.length = l2.length := by
    have := congrArg List.length hsame
    simpa using this
  have hentries : (entriesOf (some l1) nfd).map clearRevents
      = (entriesOf (some l2) nfd).map clearRevents := by
    simp only [entriesOf]
    rw [List.map_take, List.map_take, hsame]
  have hover : overrunOf (some l1) nfd = overrunOf (some l2) nfd := by
    simp only [overrunOf, hlen]
  simp only [poll, if_neg hc]
  rw [← pollFrom_clear c N _ _ _ _ _ _ ⟨_, entriesOf (some l1) nfd, _, _⟩,
    ← pollFrom_clear c N _ _ _ _ _ _ ⟨_, entriesOf (some l2) nfd, _, _⟩]
  simp only [hentries, hover]
  generalize hX : pollFrom c N _ _ _ _ _ _ _ = X
  cases X with
  | fault s => rfl
  | nofuel s => rfl
  | ret out =>
    have hl := pollFrom_length _ _ _ _ _ _ _ _ _ _ hX
    simp only [List.length_map, entriesOf, List.length_take] at hl
    simp only [Outcome.ret_bind, Outcome.map, observe, storeEntries, Option.map_some']
    congr 4
    by_cases hle : nfd ≤ l2.length
    · have h1 : out.entries.length = nfd := by omega
      rw [List.take_append_of_le_length (by omega), List.take_append_of_le_length (by omega)]
    · have d1 : l1.drop nfd = [] := List.drop_eq_nil_of_le (by omega)
      have d2 : l2.drop nfd = [] := List.drop_eq_nil_of_le (by omega)
      rw [d1, d2]

/-- Claim C3, witness: two tables of two entries that differ in `revents`. -/
theorem poll_overwrites_revents_witness :
    (poll stdConsts (exampleNative (fun _ => .brokenPipe) 1) freshProc
        (some [⟨3, 4, 0⟩, ⟨4, 0, 5⟩]) 2 0 1).map (observe 2)
      = (poll stdConsts (exampleNative (fun _ => .brokenPipe) 1) freshProc
        (some [⟨3, 4, 0xFFFF⟩, ⟨4, 0, 1⟩]) 2 0 1).map (observe 2) :=
  poll_overwrites_revents stdConsts (exampleNative (fun _ => .brokenPipe) 1) freshProc
    [⟨3, 4, 0⟩, ⟨4, 0, 5⟩] [⟨3, 4, 0xFFFF⟩, ⟨4, 0, 1⟩] 2 0 1 (by decide) (by decide) (by decide)

theorem Sys.Extends.refl {σ : Type} {P : Call → Prop} (s : Sys σ) : Sys.Extends P s s :=
  ⟨[], by simp, by simp⟩

theorem Sys.Extends.trans {σ : Type} {P : Call → Prop} {s t u : Sys σ}
    (h1 : Sys.Extends P s t) (h2 : Sys.Extends P t u) : Sys.Extends P s u := by
  obtain ⟨e1, h1, p1⟩ := h1
  obtain ⟨e2, h2, p2⟩ := h2
  refine ⟨e1 ++ e2, by rw [h2, h1, List.append_assoc], ?_⟩
  intro k hk
  rcases List.mem_append.1 hk with h | h
  · exact p1 k h
  · exact p2 k h

theorem Sys.Extends.mono {σ : Type} {P Q : Call → Prop} {s t : Sys σ}
    (h : Sys.Extends P s t) (hPQ : ∀ k, P k → Q k) : Sys.Extends Q s t := by
  obtain ⟨e, h, p⟩ := h
  exact ⟨e, h, fun k hk => hPQ k (p k hk)⟩

theorem Sys.Extends.call {σ : Type} {P : Call → Prop} {N : Native σ} {s t : Sys σ} {k : Call}
    (h : Sys.Extends P s t) (hk : P k) : Sys.Extends P s (t.call N k) := by
  obtain ⟨e, h, p⟩ := h
  refine ⟨e ++ [k], by simp [Sys.call, h], ?_⟩
  intro j hj
  rcases List.mem_append.1 hj with h | h
  · exact p j h
  · simp only [List.mem_singleton] at h
    rw [h]; exact hk

theorem Outcome.endSys_bind {σ α β : Type} {P : Call → Prop} {s : Sys σ} {o : Outcome σ α}
    {f : α → Outcome σ β} {g : α → Sys σ} {k : β → Sys σ}
    (h1 : Sys.Extends P s (o.endSys g))
    (h2 : ∀ a, o = .ret a → Sys.Extends P (g a) ((f a).endSys k)) :
    Sys.Extends P s ((o.bind f).endSys k) := by
  cases o with
  | ret a => exact Sys.Extends.trans h1 (h2 a rfl)
  | fault t => exact h1
  | nofuel t => exact h1

theorem IsSocketHandle_extends {σ : Type} (N : Native σ) (s : Sys σ) (h : HANDLE) :
    Sys.Extends (fun k => k.onDescriptor = true) s (IsSocketHandle N s h).2 := by
  unfold IsSocketHandle IsConsoleHandle
  simp only
  split
  · exact (Sys.Extends.refl s).call (by rfl)
  · exact ((Sys.Extends.refl s).call (by rfl)).call (by rfl)

theorem windows_compute_revents_default_extends {σ : Type} (c : Consts) (N : Native σ)
    (s : Sys σ) (h : HANDLE) (sought : Nat) :
    Sys.Extends (fun k => k.onDescriptor = true) s
      (windows_compute_revents_default c N s h sought).2.2 := by
  unfold windows_compute_revents_default
  simp only
  split <;> exact (Sys.Extends.refl s).call (by rfl)

theorem windows_compute_revents_extends {σ : Type} (c : Consts) (N : Native σ) (s : Sys σ)
    (h : HANDLE) (sought : Nat) :
    Sys.Extends (fun k => k.onDescriptor = true) s
      (windows_compute_revents c N s h sought).2.2 := by
  have hd := fun t => windows_compute_revents_default_extends c N t h sought
  unfold windows_compute_revents IsConsoleHandle
  simp only
  repeat' split
  all_goals
    first
    | exact (Sys.Extends.refl s).call (by rfl)
    | exact ((Sys.Extends.refl s).call (by rfl)).call (by rfl)
    | exact (((Sys.Extends.refl s).call (by rfl)).call (by rfl)).call (by rfl)
    | exact ((((Sys.Extends.refl s).call (by rfl)).call (by rfl)).call (by rfl)).call (by rfl)
    | exact Sys.Extends.trans ((Sys.Extends.refl s).call (by rfl)) (hd _)
    | exact Sys.Extends.trans (((Sys.Extends.refl s).call (by rfl)).call (by rfl)) (hd _)

theorem windows_compute_revents_socket_extends {σ : Type} (c : Consts) (N : Native σ)
    (s : Sys σ) (h : HANDLE) (sought : Nat) (ev : Nat) :
    Sys.Extends (fun k => k.onDescriptor = true) s
      (windows_compute_revents_socket c N s h sought ev).2 := by
  unfold windows_compute_revents_socket socketReadSide
  simp only
  repeat' split
  all_goals
    first
    | exact Sys.Extends.refl s
    | exact (Sys.Extends.refl s).call (by rfl)

theorem classifyEntry_extends {σ : Type} (c : Consts) (N : Native σ) (hEvent : HANDLE)
    (p : pollfd) (st : CState σ) :
    Sys.Extends (fun k => k.onDescriptor = true) st.sys
      ((classifyEntry c N hEvent p st).endSys fun r => r.2.sys) := by
  have h0 : Sys.Extends (fun k => k.onDescriptor = true) st.sys
      (st.sys.call N (.get_osfhandle p.fd)) := (Sys.Extends.refl _).call (by rfl)
  have hs := IsSocketHandle_extends N (st.sys.call N (.get_osfhandle p.fd))
    (N.get_osfhandle st.sys.w p.fd)
  have hw := windows_compute_revents_extends c N
    (IsSocketHandle N (st.sys.call N (.get_osfhandle p.fd)) (N.get_osfhandle st.sys.w p.fd)).2
    (N.get_osfhandle st.sys.w p.fd) (sext16 p.events)
  unfold classifyEntry
  simp only
  split
  · exact Sys.Extends.refl _
  split
  · exact Sys.Extends.refl _
  split
  · exact h0
  split
  · split
    · exact (h0.trans hs).call (by rfl)
    · exact h0.trans hs
  · split
    · exact (h0.trans hs).trans hw
    · exact (h0.trans hs).trans hw

theorem classify_extends {σ : Type} (c : Consts) (N : Native σ) (hEvent : HANDLE)
    (ps : List pollfd) (st : CState σ) :
    Sys.Extends (fun k => k.onDescriptor = true) st.sys
      ((classify c N hEvent ps st).endSys fun r => r.2.sys) := by
  induction ps generalizing st with
  | nil => exact Sys.Extends.refl _
  | cons p ps ih =>
    simp only [classify]
    refine Outcome.endSys_bind (classifyEntry_extends c N hEvent p st) ?_
    intro a _
    refine Outcome.endSys_bind (ih a.2) ?_
    intro b _
    exact Sys.Extends.refl _

theorem resultEntry_extends {σ : Type} (c : Consts) (N : Native σ) (harr : List HANDLE)
    (rfds wfds xfds : fd_set) (p : pollfd) (st : RState σ) :
    Sys.Extends (fun k => k.onDescriptor = true) st.sys
      ((resultEntry c N harr rfds wfds xfds p st).endSys fun r => r.2.sys) := by
  have h0 : Sys.Extends (fun k => k.onDescriptor = true) st.sys
      (st.sys.call N (.get_osfhandle p.fd)) := (Sys.Extends.refl _).call (by rfl)
  have hw := windows_compute_revents_extends c N (st.sys.call N (.get_osfhandle p.fd))
    (N.get_osfhandle st.sys.w p.fd) (sext16 p.events)
  have hk := fun ev => windows_compute_revents_socket_extends c N
    (((st.sys.call N (.get_osfhandle p.fd)).call N
      (.WSAEnumNetworkEvents (N.get_osfhandle st.sys.w p.fd))).call N
      (.WSAEventSelect (N.get_osfhandle st.sys.w p.fd) 0 0))
    (N.get_osfhandle st.sys.w p.fd) (sext16 p.events) ev
  unfold resultEntry
  simp only
  split
  · exact Sys.Extends.refl _
  split
  · exact Sys.Extends.refl _
  split
  · exact h0
  · split
    · exact ((h0.call (by rfl)).call (by rfl)).trans (hk _)
    · exact h0.trans hw

theorem results_extends {σ : Type} (c : Consts) (N : Native σ) (harr : List HANDLE)
    (rfds wfds xfds : fd_set) (ps : List pollfd) (st : RState σ) :
    Sys.Extends (fun k => k.onDescriptor = true) st.sys
      ((results c N harr rfds wfds xfds ps st).endSys fun r => r.2.sys) := by
  induction ps generalizing st with
  | nil => exact Sys.Extends.refl _
  | cons p ps ih =>
    simp only [results]
    refine Outcome.endSys_bind (resultEntry_extends c N harr rfds wfds xfds p st) ?_
    intro a _
    refine Outcome.endSys_bind (ih a.2) ?_
    intro b _
    exact Sys.Extends.refl _

theorem drainMessages_extends {σ : Type} (N : Native σ) (hs : List HANDLE) (wt : Nat)
    (fuel : Nat) (s : Sys σ) :
    Sys.Extends (Call.isWait hs wt) s ((drainMessages N fuel s).endSys id) := by
  induction fuel generalizing s with
  | zero => exact Sys.Extends.refl _
  | succ n ih =>
    simp only [drainMessages]
    split
    · refine Sys.Extends.trans ?_ (ih _)
      exact (((Sys.Extends.refl s).call (by simp [Call.isWait])).call
        (by simp [Call.isWait])).call (by simp [Call.isWait])
    · exact (Sys.Extends.refl s).call (by simp [Call.isWait])

theorem waitLoop_extends {σ : Type} (c : Consts) (N : Native σ) (hs : List HANDLE) (wt : Nat)
    (drainFuel : Nat) (fuel : Nat) (s : Sys σ) :
    Sys.Extends (Call.isWait hs wt) s ((waitLoop c N hs wt drainFuel fuel s).endSys id) := by
  induction fuel generalizing s with
  | zero => exact Sys.Extends.refl _
  | succ n ih =>
    have h0 : Sys.Extends (Call.isWait hs wt) s
        (s.call N (.MsgWaitForMultipleObjects hs wt)) :=
      (Sys.Extends.refl s).call (by simp [Call.isWait])
    simp only [waitLoop]
    split
    · refine Outcome.endSys_bind (h0.trans (drainMessages_extends N hs wt _ _)) ?_
      intro a _
      exact ih a
    · exact h0

theorem classify_allneg {σ : Type} (c : Consts) (N : Native σ) (hEvent : HANDLE)
    (ps : List pollfd) (st : CState σ) (hneg : ∀ p ∈ ps, p.fd < 0) :
    classify c N hEvent ps st = .ret (ps.map clearRevents, st) := by
  induction ps with
  | nil => rfl
  | cons p ps ih =>
    have hp : p.fd < 0 := hneg p (List.mem_cons_self _ _)
    have ih := ih (fun q hq => hneg q (List.mem_cons_of_mem _ hq))
    simp only [classify, classifyEntry, if_pos hp, Outcome.ret_bind, ih, List.map_cons,
      clearRevents]

theorem results_allneg {σ : Type} (c : Consts) (N : Native σ) (harr : List HANDLE)
    (rfds wfds xfds : fd_set) (ps : List pollfd) (st : RState σ) (hneg : ∀ p ∈ ps, p.fd < 0) :
    results c N harr rfds wfds xfds ps st = .ret (ps, st) := by
  induction ps with
  | nil => rfl
  | cons p ps ih =>
    have hp : p.fd < 0 := hneg p (List.mem_cons_self _ _)
    have ih := ih (fun q hq => hneg q (List.mem_cons_of_mem _ hq))
    simp only [results, resultEntry, if_pos hp, Outcome.ret_bind, ih]

theorem allneg_clear (ps : List pollfd) (hneg : ∀ p ∈ ps, p.fd < 0) :
    ∀ p ∈ ps.map clearRevents, p.fd < 0 := by
  intro p hp
  obtain ⟨q, hq, rfl⟩ := List.mem_map.1 hp
  exact hneg q hq

/-- A pass over entries that all have a negative descriptor, when it ends,
leaves `rc = 0` and `nhandles = 1` and only clears the `revents` fields. -/
theorem pollPass_allneg {σ : Type} {c : Consts} {N : Native σ} {hEvent : HANDLE} {tend : Int}
    {save_timeout : Int} {overrun : Bool} {waitFuel : Nat} {st : PollState σ} {out : PassOut σ}
    (hneg : ∀ p ∈ st.entries, p.fd < 0)
    (h : pollPass c N hEvent tend save_timeout overrun waitFuel st = .ret out) :
    out.rc = 0 ∧ out.nhandles = 1 ∧ out.entries = st.entries.map clearRevents := by
  obtain ⟨cl, s3, rl, hcl, _, _, _, hrl, rfl⟩ := pollPass_ret h
  rw [classify_allneg c N hEvent _ _ hneg] at hcl
  cases hcl
  rw [results_allneg c N _ _ _ _ _ _ (allneg_clear _ hneg)] at hrl
  cases hrl
  exact ⟨rfl, rfl, rfl⟩

/-- With the infinite timeout and only negative descriptors no number of
passes makes `poll` return. -/
theorem pollFrom_allneg_inftim {σ : Type} (c : Consts) (N : Native σ) (hEvent : HANDLE)
    (tend : Int) (overrun : Bool) (waitFuel : Nat) (fuel : Nat) (st : PollState σ)
    (hneg : ∀ p ∈ st.entries, p.fd < 0) (out : PassOut σ) :
    pollFrom c N hEvent tend INFTIM overrun waitFuel fuel st ≠ .ret out := by
  induction fuel generalizing st with
  | zero => simp [pollFrom]
  | succ n ih =>
    intro h
    rw [pollFrom] at h
    obtain ⟨o1, h1, h2⟩ := Outcome.bind_eq_ret h
    obtain ⟨hrc, _, hent⟩ := pollPass_allneg hneg h1
    rw [if_pos ⟨hrc, Or.inl rfl⟩] at h2
    refine ih _ ?_ h2
    simp only [hent]
    exact allneg_clear _ hneg

/-- With a finite timeout and only negative descriptors `poll` returns after
one pass, once the wait loop has come to an end. -/
theorem pollFrom_allneg_finite {σ : Type} (c : Consts) (N : Native σ) (hEvent : HANDLE)
    (tend : Int) (save_timeout : Int) (fuel : Nat) (st : PollState σ)
    (hneg : ∀ p ∈ st.entries, p.fd < 0) (hne : save_timeout ≠ INFTIM)
    (hwait : WaitTerminates c N fuel) :
    ∃ out ws tail, pollFrom c N hEvent tend save_timeout false fuel fuel st = .ret out
      ∧ out.rc = 0 ∧ out.entries = st.entries.map clearRevents
      ∧ out.sys.log = st.sys.log ++ (.clock :: .select [] [] [] :: ws ++ tail)
      ∧ (∀ k ∈ ws, ∃ wt, Call.isWait [hEvent] wt k)
      ∧ (tail = [] ∨ ∃ a b d, tail = [.select a b d]) := by
  cases fuel with
  | zero =>
    obtain ⟨s', h⟩ := hwait st.sys [] 0 (by simp)
    simp [waitLoop] at h
  | succ n =>
    obtain ⟨s3, hs3⟩ := hwait ((st.sys.call N .clock).call N (.select [] [] [])) [hEvent]
      (waitTimeout c (N.select (st.sys.call N .clock).w [] [] []).1 save_timeout) (by simp)
    have hext := waitLoop_extends c N [hEvent]
      (waitTimeout c (N.select (st.sys.call N .clock).w [] [] []).1 save_timeout) (n + 1) (n + 1)
      ((st.sys.call N .clock).call N (.select [] [] []))
    rw [hs3] at hext
    obtain ⟨ws, hws, hP⟩ := hext
    simp only [Outcome.endSys, id] at hws
    have hpass : pollPass c N hEvent tend save_timeout false (n + 1) st
        = .ret ⟨(selectAgain N (N.select (st.sys.call N .clock).w [] [] []).1
              (N.select (st.sys.call N .clock).w [] [] []).2.1
              (N.select (st.sys.call N .clock).w [] [] []).2.2.1
              (N.select (st.sys.call N .clock).w [] [] []).2.2.2 s3).2.2.2,
            st.entries.map clearRevents, (remaining N tend save_timeout st).1,
            st.lNetworkEvents, 0, 1⟩ := by
      simp only [pollPass, remaining, ne_eq, hne, not_false_eq_true, if_true,
        classify_allneg c N _ _ _ hneg, Outcome.ret_bind, Bool.false_eq_true, if_false, hs3,
        List.length_singleton]
      rw [if_neg (by omega)]
      simp only [results_allneg c N _ _ _ _ _ _ (allneg_clear _ hneg), Outcome.ret_bind]
    rw [pollFrom, hpass, Outcome.ret_bind, if_neg (by simp [hne])]
    by_cases hn : 0 < (N.select (st.sys.call N .clock).w [] [] []).1
    · refine ⟨_, ws, [], rfl, rfl, rfl, ?_, fun k hk => ⟨_, hP k hk⟩, Or.inl rfl⟩
      simp only [selectAgain, if_pos hn, hws]
      simp [Sys.call]
    · refine ⟨_, ws, [.select (N.select (st.sys.call N .clock).w [] [] []).2.1
          (N.select (st.sys.call N .clock).w [] [] []).2.2.1
          (N.select (st.sys.call N .clock).w [] [] []).2.2.2], rfl, rfl, rfl, ?_,
        fun k hk => ⟨_, hP k hk⟩, Or.inr ⟨_, _, _, rfl⟩⟩
      simp only [selectAgain, if_neg hn]
      simp [Sys.call, hws]

/-- Claim C4, amended. Let every entry `pfd[0 .. nfd-1]` have a negative
descriptor (the empty set included).  With the infinite timeout `poll` does
not return.  With a timeout `>= 0`, once the wait loop has come to an end,
`poll` returns 0, leaves `errno` alone and sets every `revents` to 0, and its
native calls are `clock`, `CreateEvent` when the event did not exist yet,
`clock`, `select` on three empty sets, the wait on the shared event alone with
its message pump, and at most one more `select`: no handle is resolved, probed
or registered. -/
theorem poll_all_invalid {σ : Type} (c : Consts) (N : Native σ) (pr : Proc σ)
    (pfd : Option (List pollfd)) (nfd : Nat) (timeout : Int) (fuel : Nat)
    (htable : overrunOf pfd nfd = false)
    (hneg : ∀ p ∈ entriesOf pfd nfd, p.fd < 0)
    (hnfd : nfd ≤ c.INT_MAX) (htimeout : -1 ≤ timeout) :
    (timeout = -1 → ∀ r, poll c N pr pfd nfd timeout fuel ≠ .ret r)
    ∧ (0 ≤ timeout → WaitTerminates c N fuel →
        ∃ r ws tail, poll c N pr pfd nfd timeout fuel = .ret r
          ∧ r.ret = 0 ∧ r.errno = pr.errno
          ∧ r.pfd = storeEntries pfd nfd ((entriesOf pfd nfd).map clearRevents)
          ∧ r.sys.log = pr.sys.log ++ (.clock :: (if pr.hEvent = 0 then [.CreateEvent] else [])
              ++ .clock :: .select [] [] [] :: ws ++ tail)
          ∧ (∀ k ∈ ws, ∃ wt, Call.isWait [r.hEvent] wt k)
          ∧ (tail = [] ∨ ∃ a b d, tail = [.select a b d])) := by
  have hc : ¬ (nfd > c.INT_MAX ∨ timeout < -1) := by omega
  constructor
  · intro ht r h
    subst ht
    simp only [poll, if_neg hc] at h
    obtain ⟨out, h1, _⟩ := Outcome.bind_eq_ret h
    exact pollFrom_allneg_inftim c N _ _ _ _ _ _ hneg out h1
  · intro ht hwait
    have hne : timeout ≠ INFTIM := by simp only [INFTIM]; omega
    obtain ⟨out, ws, tail, hout, hrc, hent, hlog, hws, htail⟩ :=
      pollFrom_allneg_finite c N
        (if pr.hEvent = 0 then N.CreateEvent (pr.sys.call N .clock).w else pr.hEvent)
        (N.clock pr.sys.w + timeout) timeout fuel
        ⟨if pr.hEvent = 0 then (pr.sys.call N .clock).call N .CreateEvent
          else pr.sys.call N .clock, entriesOf pfd nfd, 0, pr.stack_ev⟩ hneg hne hwait
    refine ⟨⟨(out.rc : Int), pr.errno, storeEntries pfd nfd out.entries,
      if pr.hEvent = 0 then N.CreateEvent (pr.sys.call N .clock).w else pr.hEvent, out.sys⟩,
      ws, tail, ?_, ?_, rfl, ?_, ?_, hws, htail⟩
    · simp only [poll, if_neg hc, htable, hout, Outcome.ret_bind]
    · simp [hrc]
    · simp only [hent]
    · simp only [hlog]
      split <;> simp [Sys.call]

theorem Call.inPass_of_onDescriptor (c : Consts) (save_timeout : Int) (k : Call)
    (h : k.onDescriptor = true) : Call.inPass c save_timeout k := by
  cases k <;> simp [Call.onDescriptor] at h <;> simp [Call.inPass]

theorem Call.inPass_of_isWait (c : Consts) (save_timeout : Int) (hs : List HANDLE) (wt : Nat)
    (hwt : WaitTimeoutOK c save_timeout wt) (k : Call) (h : Call.isWait hs wt k) :
    Call.inPass c save_timeout k := by
  rcases h with h | h | h | h <;> subst h <;> simp [Call.inPass]
  exact hwt

theorem classifyEntry_timeout {σ : Type} {c : Consts} {N : Native σ} {hEvent : HANDLE}
    {p : pollfd} {st : CState σ} {r : pollfd × CState σ}
    (h : classifyEntry c N hEvent p st = .ret r) :
    r.2.timeout = st.timeout ∨ r.2.timeout = 0 := by
  unfold classifyEntry at h
  simp only at h
  split at h
  · cases h; exact Or.inl rfl
  split at h
  · cases h; exact Or.inl rfl
  split at h
  · cases h
  split at h
  · cases h; exact Or.inl rfl
  · split at h
    · cases h
    · cases h
      simp only
      split
      · exact Or.inr rfl
      · exact Or.inl rfl

theorem classify_timeout {σ : Type} {c : Consts} {N : Native σ} {hEvent : HANDLE}
    {ps : List pollfd} {st : CState σ} {r : List pollfd × CState σ}
    (h : classify c N hEvent ps st = .ret r) :
    r.2.timeout = st.timeout ∨ r.2.timeout = 0 := by
  induction ps generalizing st r with
  | nil => simp only [classify] at h; cases h; exact Or.inl rfl
  | cons p ps ih =>
    simp only [classify] at h
    obtain ⟨a, h1, h2⟩ := Outcome.bind_eq_ret h
    obtain ⟨b, h3, h4⟩ := Outcome.bind_eq_ret h2
    cases h4
    rcases ih h3 with hb | hb
    · rcases classifyEntry_timeout h1 with ha | ha
      · exact Or.inl (hb.trans ha)
      · exact Or.inr (hb.trans ha)
    · exact Or.inr hb

theorem waitTimeout_ok (c : Consts) (save_timeout : Int) (n : Int) (t : Int)
    (ht : t = save_timeout ∨ t = 0) : WaitTimeoutOK c save_timeout (waitTimeout c n t) := by
  unfold waitTimeout WaitTimeoutOK
  split
  · exact Or.inl rfl
  · rcases ht with ht | ht
    · subst ht
      split
      · rename_i h; exact Or.inr (Or.inl ⟨h, rfl⟩)
      · rename_i h; exact Or.inr (Or.inr ⟨h, rfl⟩)
    · subst ht
      left
      simp [INFTIM]

theorem selectAgain_extends {σ : Type} (P : Call → Prop) (N : Native σ) (n : Int)
    (rfds wfds xfds : fd_set) (s : Sys σ) (hP : ∀ r w x, P (.select r w x)) :
    Sys.Extends P s (selectAgain N n rfds wfds xfds s).2.2.2 := by
  unfold selectAgain
  split
  · exact Sys.Extends.refl s
  · exact (Sys.Extends.refl s).call (hP _ _ _)

/-- Every native call of one pass is one that `Call.inPass` allows, however
the pass ends. -/
theorem pollPass_extends {σ : Type} (c : Consts) (N : Native σ) (hEvent : HANDLE) (tend : Int)
    (save_timeout : Int) (overrun : Bool) (waitFuel : Nat) (st : PollState σ) :
    Sys.Extends (Call.inPass c save_timeout) st.sys
      ((pollPass c N hEvent tend save_timeout overrun waitFuel st).endSys fun o => o.sys) := by
  have hsel : ∀ r w x, Call.inPass c save_timeout (.select r w x) := by
    intro r w x; simp [Call.inPass]
  have hstart : Sys.Extends (Call.inPass c save_timeout) st.sys
      (remaining N tend save_timeout st).2 := by
    unfold remaining
    simp only
    split
    · exact (Sys.Extends.refl _).call (by simp [Call.inPass])
    · exact Sys.Extends.refl _
  unfold pollPass
  simp only
  refine Outcome.endSys_bind (g := fun r => r.2.sys) ?_ ?_
  · exact hstart.trans ((classify_extends c N hEvent _ _).mono
      (Call.inPass_of_onDescriptor c save_timeout))
  intro cl hcl
  split
  · exact Sys.Extends.refl _
  refine Outcome.endSys_bind (g := id) ?_ ?_
  · refine Sys.Extends.trans (t := cl.2.sys.call N (.select cl.2.rfds cl.2.wfds cl.2.xfds))
      ((Sys.Extends.refl _).call (hsel _ _ _)) ?_
    refine (waitLoop_extends c N _ _ _ _ _).mono ?_
    exact Call.inPass_of_isWait c save_timeout _ _ (waitTimeout_ok c save_timeout _ _
      (classify_timeout hcl))
  intro s3 _
  have hag := selectAgain_extends (Call.inPass c save_timeout) N
    (N.select cl.2.sys.w cl.2.rfds cl.2.wfds cl.2.xfds).1
    (N.select cl.2.sys.w cl.2.rfds cl.2.wfds cl.2.xfds).2.1
    (N.select cl.2.sys.w cl.2.rfds cl.2.wfds cl.2.xfds).2.2.1
    (N.select cl.2.sys.w cl.2.rfds cl.2.wfds cl.2.xfds).2.2.2 s3 hsel
  split
  · exact hag
  refine Outcome.endSys_bind (g := fun r => r.2.sys) ?_ ?_
  · exact hag.trans ((results_extends c N _ _ _ _ _ _).mono
      (Call.inPass_of_onDescriptor c save_timeout))
  intro rl _
  exact Sys.Extends.refl _

theorem classifyEntry_keys {σ : Type} {c : Consts} {N : Native σ} {hEvent : HANDLE}
    {p : pollfd} {st : CState σ} {r : pollfd × CState σ}
    (h : classifyEntry c N hEvent p st = .ret r) : clearRevents r.1 = clearRevents p := by
  unfold classifyEntry at h
  simp only at h
  repeat' split at h
  all_goals first
    | cases h; rfl
    | cases h

theorem classify_keys {σ : Type} {c : Consts} {N : Native σ} {hEvent : HANDLE}
    {ps : List pollfd} {st : CState σ} {r : List pollfd × CState σ}
    (h : classify c N hEvent ps st = .ret r) : r.1.map clearRevents = ps.map clearRevents := by
  induction ps generalizing st r with
  | nil => simp only [classify] at h; cases h; rfl
  | cons p ps ih =>
    simp only [classify] at h
    obtain ⟨a, h1, h2⟩ := Outcome.bind_eq_ret h
    obtain ⟨b, h3, h4⟩ := Outcome.bind_eq_ret h2
    cases h4
    simp only [List.map_cons, classifyEntry_keys h1, ih h3]

theorem resultEntry_keys {σ : Type} {c : Consts} {N : Native σ} {harr : List HANDLE}
    {rfds wfds xfds : fd_set} {p : pollfd} {st : RState σ} {r : pollfd × RState σ}
    (h : resultEntry c N harr rfds wfds xfds p st = .ret r) :
    clearRevents r.1 = clearRevents p := by
  unfold resultEntry at h
  simp only at h
  repeat' split at h
  all_goals first
    | cases h; rfl
    | cases h

theorem results_keys {σ : Type} {c : Consts} {N : Native σ} {harr : List HANDLE}
    {rfds wfds xfds : fd_set} {ps : List pollfd} {st : RState σ} {r : List pollfd × RState σ}
    (h : results c N harr rfds wfds xfds ps st = .ret r) :
    r.1.map clearRevents = ps.map clearRevents := by
  induction ps generalizing st r with
  | nil => simp only [results] at h; cases h; rfl
  | cons p ps ih =>
    simp only [results] at h
    obtain ⟨a, h1, h2⟩ := Outcome.bind_eq_ret h
    obtain ⟨b, h3, h4⟩ := Outcome.bind_eq_ret h2
    cases h4
    simp only [List.map_cons, resultEntry_keys h1, ih h3]

theorem keys_of_clear {p q : pollfd} (h : clearRevents p = clearRevents q) :
    p.fd = q.fd ∧ p.events = q.events := by
  have h1 : (clearRevents p).fd = (clearRevents q).fd := by rw [h]
  have h2 : (clearRevents p).events = (clearRevents q).events := by rw [h]
  exact ⟨h1, h2⟩

/-- Entries with the same descriptors and event masks as entries whose
descriptors all satisfy `P` have descriptors that satisfy `P`. -/
theorem fd_of_keys {P : Int → Prop} {ps qs : List pollfd}
    (hk : qs.map clearRevents = ps.map clearRevents) (hP : ∀ p ∈ ps, P p.fd) :
    ∀ q ∈ qs, P q.fd := by
  intro q hq
  have : clearRevents q ∈ ps.map clearRevents := by
    rw [← hk]; exact List.mem_map_of_mem _ hq
  obtain ⟨p, hp, hpq⟩ := List.mem_map.1 this
  rw [← (keys_of_clear hpq).1]
  exact hP p hp

/-- An iteration of the classification loop leaves `handle_array` alone or
appends one handle, which is not `NULL` and which `IsSocketHandle` rejected. -/
theorem classifyEntry_handles {σ : Type} {c : Consts} {N : Native σ} {hEvent : HANDLE}
    {p : pollfd} {st : CState σ} {r : pollfd × CState σ}
    (h : classifyEntry c N hEvent p st = .ret r) :
    r.2.handle_array = st.handle_array
      ∨ ∃ x, r.2.handle_array = st.handle_array ++ [x] ∧ NonSocket N x ∧ x ≠ 0 := by
  unfold classifyEntry at h
  simp only at h
  split at h
  · cases h; exact Or.inl rfl
  split at h
  · cases h; exact Or.inl rfl
  split at h
  · cases h
  rename_i hnull
  split at h
  · cases h; exact Or.inl rfl
  · rename_i hsock
    split at h
    · cases h
    · cases h
      simp only
      split
      · exact Or.inr ⟨_, rfl, ⟨_, by simpa using hsock⟩, hnull⟩
      · exact Or.inl rfl

theorem classify_handles {σ : Type} {c : Consts} {N : Native σ} {hEvent : HANDLE}
    {ps : List pollfd} {st : CState σ} {r : List pollfd × CState σ}
    (h : classify c N hEvent ps st = .ret r) :
    ∃ added, r.2.handle_array = st.handle_array ++ added
      ∧ ∀ x ∈ added, NonSocket N x ∧ x ≠ 0 := by
  induction ps generalizing st r with
  | nil => simp only [classify] at h; cases h; exact ⟨[], by simp, by simp⟩
  | cons p ps ih =>
    simp only [classify] at h
    obtain ⟨a, h1, h2⟩ := Outcome.bind_eq_ret h
    obtain ⟨b, h3, h4⟩ := Outcome.bind_eq_ret h2
    cases h4
    obtain ⟨added, hadd, hP⟩ := ih h3
    rcases classifyEntry_handles h1 with ha | ⟨x, ha, hx⟩
    · exact ⟨added, by simp only [hadd, ha], hP⟩
    · refine ⟨x :: added, by simp only [hadd, ha, List.append_assoc, List.singleton_append], ?_⟩
      intro y hy
      rcases List.mem_cons.1 hy with hy | hy
      · rw [hy]; exact hx
      · exact hP y hy

theorem classifyEntry_ok {σ : Type} (c : Consts) (N : Native σ) (hEvent : HANDLE)
    (p : pollfd) (st : CState σ) (hopen : ∀ w, N.get_osfhandle w p.fd ≠ 0)
    (hcap : st.handle_array.length < c.FD_SETSIZE + 2) :
    ∃ r, classifyEntry c N hEvent p st = .ret r
      ∧ r.2.handle_array.length ≤ st.handle_array.length + 1 := by
  unfold classifyEntry
  simp only
  split
  · exact ⟨_, rfl, by simp⟩
  split
  · exact ⟨_, rfl, by simp⟩
  rw [if_neg (hopen _)]
  split
  · exact ⟨_, rfl, by simp⟩
  · rw [if_neg (by simp [hcap])]
    refine ⟨_, rfl, ?_⟩
    simp only
    split <;> simp

theorem classify_ok {σ : Type} (c : Consts) (N : Native σ) (hEvent : HANDLE)
    (ps : List pollfd) (st : CState σ) (hopen : ∀ p ∈ ps, ∀ w, N.get_osfhandle w p.fd ≠ 0)
    (hcap : st.handle_array.length + ps.length ≤ c.FD_SETSIZE + 1) :
    ∃ r, classify c N hEvent ps st = .ret r
      ∧ r.2.handle_array.length ≤ st.handle_array.length + ps.length := by
  induction ps generalizing st with
  | nil => exact ⟨_, rfl, by simp⟩
  | cons p ps ih =>
    simp only [List.length_cons] at hcap
    obtain ⟨a, ha, hla⟩ := classifyEntry_ok c N hEvent p st
      (hopen p (List.mem_cons_self _ _)) (by omega)
    obtain ⟨b, hb, hlb⟩ := ih a.2 (fun q hq => hopen q (List.mem_cons_of_mem _ hq)) (by omega)
    refine ⟨(a.1 :: b.1, b.2), by simp only [classify, ha, hb, Outcome.ret_bind], ?_⟩
    simp only [List.length_cons]
    omega

theorem resultEntry_ok {σ : Type} (c : Consts) (N : Native σ) (pre : List HANDLE)
    (rfds wfds xfds : fd_set) (p : pollfd) (st : RState σ)
    (hopen : ∀ w, N.get_osfhandle w p.fd ≠ 0) (hn : st.nhandles ≤ pre.length) :
    ∃ r, resultEntry c N (pre ++ [0]) rfds wfds xfds p st = .ret r
      ∧ r.2.nhandles ≤ pre.length := by
  unfold resultEntry
  simp only
  split
  · exact ⟨_, rfl, hn⟩
  split
  · exact ⟨_, rfl, hn⟩
  have hget : ∃ slot, (pre ++ [0])[st.nhandles]? = some slot := by
    refine ⟨(pre ++ [0]).get ⟨st.nhandles, by simp; omega⟩, ?_⟩
    exact List.getElem?_eq_getElem _
  obtain ⟨slot, hslot⟩ := hget
  rw [hslot]
  simp only
  split
  · exact ⟨_, rfl, hn⟩
  · rename_i heq
    refine ⟨_, rfl, ?_⟩
    simp only [storeResult]
    have heq : N.get_osfhandle st.sys.w p.fd = slot := by simpa using heq
    by_contra hlt
    have hnl : st.nhandles = pre.length := by omega
    rw [hnl] at hslot
    simp at hslot
    exact hopen st.sys.w (heq.trans hslot.symm)

theorem results_ok {σ : Type} (c : Consts) (N : Native σ) (pre : List HANDLE)
    (rfds wfds xfds : fd_set) (ps : List pollfd) (st : RState σ)
    (hopen : ∀ p ∈ ps, ∀ w, N.get_osfhandle w p.fd ≠ 0) (hn : st.nhandles ≤ pre.length) :
    ∃ r, results c N (pre ++ [0]) rfds wfds xfds ps st = .ret r := by
  induction ps generalizing st with
  | nil => exact ⟨_, rfl⟩
  | cons p ps ih =>
    obtain ⟨a, ha, hla⟩ := resultEntry_ok c N pre rfds wfds xfds p st
      (hopen p (List.mem_cons_self _ _)) hn
    obtain ⟨b, hb⟩ := ih a.2 (fun q hq => hopen q (List.mem_cons_of_mem _ hq)) hla
    exact ⟨(a.1 :: b.1, b.2), by simp only [results, ha, hb, Outcome.ret_bind]⟩

/-- A pass runs to its end when the table holds the `nfd` entries, no
descriptor of the set resolves to the `NULL` handle, the set has at most
`FD_SETSIZE` entries and the wait loop terminates. -/
theorem pollPass_ok {σ : Type} (c : Consts) (N : Native σ) (hEvent : HANDLE) (tend : Int)
    (save_timeout : Int) (waitFuel : Nat) (st : PollState σ)
    (hopen : ∀ p ∈ st.entries, ∀ w, N.get_osfhandle w p.fd ≠ 0)
    (hcap : st.entries.length ≤ c.FD_SETSIZE)
    (hwait : WaitTerminates c N waitFuel) :
    ∃ out, pollPass c N hEvent tend save_timeout false waitFuel st = .ret out := by
  obtain ⟨cl, hcl, hlen⟩ := classify_ok c N hEvent st.entries
    ⟨(remaining N tend save_timeout st).2, [hEvent], [], [], [], save_timeout⟩ hopen
    (by simp only [List.length_singleton]; omega)
  simp only [List.length_singleton] at hlen
  obtain ⟨s3, hs3⟩ := hwait (cl.2.sys.call N (.select cl.2.rfds cl.2.wfds cl.2.xfds))
    cl.2.handle_array
    (waitTimeout c (N.select cl.2.sys.w cl.2.rfds cl.2.wfds cl.2.xfds).1 cl.2.timeout)
    (by omega)
  have hopen2 : ∀ q ∈ cl.1, ∀ w, N.get_osfhandle w q.fd ≠ 0 :=
    fd_of_keys (P := fun fd => ∀ w, N.get_osfhandle w fd ≠ 0) (classify_keys hcl) hopen
  obtain ⟨rl, hrl⟩ := results_ok c N cl.2.handle_array
    (selectAgain N (N.select cl.2.sys.w cl.2.rfds cl.2.wfds cl.2.xfds).1
      (N.select cl.2.sys.w cl.2.rfds cl.2.wfds cl.2.xfds).2.1
      (N.select cl.2.sys.w cl.2.rfds cl.2.wfds cl.2.xfds).2.2.1
      (N.select cl.2.sys.w cl.2.rfds cl.2.wfds cl.2.xfds).2.2.2 s3).1
    (selectAgain N (N.select cl.2.sys.w cl.2.rfds cl.2.wfds cl.2.xfds).1
      (N.select cl.2.sys.w cl.2.rfds cl.2.wfds cl.2.xfds).2.1
      (N.select cl.2.sys.w cl.2.rfds cl.2.wfds cl.2.xfds).2.2.1
      (N.select cl.2.sys.w cl.2.rfds cl.2.wfds cl.2.xfds).2.2.2 s3).2.1
    (selectAgain N (N.select cl.2.sys.w cl.2.rfds cl.2.wfds cl.2.xfds).1
      (N.select cl.2.sys.w cl.2.rfds cl.2.wfds cl.2.xfds).2.1
      (N.select cl.2.sys.w cl.2.rfds cl.2.wfds cl.2.xfds).2.2.1
      (N.select cl.2.sys.w cl.2.rfds cl.2.wfds cl.2.xfds).2.2.2 s3).2.2.1
    cl.1
    ⟨(selectAgain N (N.select cl.2.sys.w cl.2.rfds cl.2.wfds cl.2.xfds).1
      (N.select cl.2.sys.w cl.2.rfds cl.2.wfds cl.2.xfds).2.1
      (N.select cl.2.sys.w cl.2.rfds cl.2.wfds cl.2.xfds).2.2.1
      (N.select cl.2.sys.w cl.2.rfds cl.2.wfds cl.2.xfds).2.2.2 s3).2.2.2,
      1, st.lNetworkEvents, 0⟩ hopen2 (by
        obtain ⟨added, hadd, _⟩ := classify_handles hcl
        simp only [hadd, List.length_append, List.length_singleton]
        omega)
  refine ⟨⟨rl.2.sys, rl.1, (remaining N tend save_timeout st).1, rl.2.lNetworkEvents,
    rl.2.rc, rl.2.nhandles⟩, ?_⟩
  simp only [pollPass, hcl, Outcome.ret_bind, Bool.false_eq_true, if_false, hs3]
  rw [if_neg (by omega)]
  simp only [hrl, Outcome.ret_bind]

/-- With `timeout = 0` and a clock that does not run backwards, `poll` is
one pass followed by `return rc`. -/
theorem poll_zero_one_pass {σ : Type} (c : Consts) (N : Native σ) (pr : Proc σ)
    (pfd : Option (List pollfd)) (nfd : Nat) (fuel : Nat)
    (hnfd : nfd ≤ c.INT_MAX)
    (hclock : ∀ w k, N.clock w ≤ N.clock (N.next w k)) :
    poll c N pr pfd nfd 0 (fuel + 1)
      = (pollPass c N (if pr.hEvent = 0 then N.CreateEvent (pr.sys.call N .clock).w else pr.hEvent)
          (N.clock pr.sys.w + 0) 0 (overrunOf pfd nfd) (fuel + 1)
          ⟨if pr.hEvent = 0 then (pr.sys.call N .clock).call N .CreateEvent
            else pr.sys.call N .clock, entriesOf pfd nfd, 0, pr.stack_ev⟩).bind fun out =>
        .ret ⟨out.rc, pr.errno, storeEntries pfd nfd out.entries,
          if pr.hEvent = 0 then N.CreateEvent (pr.sys.call N .clock).w else pr.hEvent, out.sys⟩ := by
  have hc : ¬ (nfd > c.INT_MAX ∨ (0 : Int) < -1) := by omega
  simp only [poll, if_neg hc, pollFrom]
  generalize hX : pollPass c N _ _ _ _ _ _ = X
  cases X with
  | fault s => rfl
  | nofuel s => rfl
  | ret out =>
    obtain ⟨cl, s3, rl, _, _, _, _, _, hout⟩ := pollPass_ret hX
    have hrt : out.real_timeout = 0 := by
      rw [hout]
      simp only [remaining]
      rw [if_pos (by simp [INFTIM])]
      simp only
      rw [if_neg]
      have h1 := hclock pr.sys.w .clock
      have h2 := hclock (N.next pr.sys.w .clock) .CreateEvent
      split <;> simp only [Sys.call] <;> omega
    simp only [Outcome.ret_bind]
    rw [if_neg (by simp [hrt, INFTIM])]
    rfl

/-- Claim C5. With `timeout = 0` and a clock that does not run backwards:
however the run ends, no native call is `SleepEx` and every
`MsgWaitForMultipleObjects` has the timeout 0; `poll` is one pass (one
classification loop, one result loop) followed by `return rc`; and `poll`
returns when the table holds the `nfd` entries, no descriptor of the set
resolves to `NULL`, the set has at most `FD_SETSIZE` entries and the wait loop
comes to an end. -/
theorem poll_zero_timeout_never_blocks {σ : Type} (c : Consts) (N : Native σ) (pr : Proc σ)
    (pfd : Option (List pollfd)) (nfd : Nat) (fuel : Nat)
    (hnfd : nfd ≤ c.INT_MAX)
    (hclock : ∀ w k, N.clock w ≤ N.clock (N.next w k)) :
    Sys.Extends
        (fun k => (∀ ms, k ≠ .SleepEx ms)
          ∧ ∀ hs wt, k = .MsgWaitForMultipleObjects hs wt → wt = 0)
        pr.sys ((poll c N pr pfd nfd 0 fuel).endSys fun r => r.sys)
    ∧ (∃ hEvent tend st0, poll c N pr pfd nfd 0 (fuel + 1)
        = (pollPass c N hEvent tend 0 (overrunOf pfd nfd) (fuel + 1) st0).bind fun out =>
            .ret ⟨out.rc, pr.errno, storeEntries pfd nfd out.entries, hEvent, out.sys⟩)
    ∧ (overrunOf pfd nfd = false → (∀ p ∈ entriesOf pfd nfd, ∀ w, N.get_osfhandle w p.fd ≠ 0) →
        nfd ≤ c.FD_SETSIZE → WaitTerminates c N fuel →
        ∃ r, poll c N pr pfd nfd 0 fuel = .ret r) := by
  have hP : ∀ k, Call.inPass c 0 k →
      (∀ ms, k ≠ .SleepEx ms) ∧ ∀ hs wt, k = .MsgWaitForMultipleObjects hs wt → wt = 0 := by
    intro k hk
    refine ⟨hk.1, fun hs wt h => ?_⟩
    rcases hk.2 hs wt h with h0 | ⟨h1, _⟩ | ⟨_, h2⟩
    · exact h0
    · simp [INFTIM] at h1
    · simpa using h2
  have hs2 : Sys.Extends
      (fun k => (∀ ms, k ≠ .SleepEx ms)
        ∧ ∀ hs wt, k = .MsgWaitForMultipleObjects hs wt → wt = 0) pr.sys
      (if pr.hEvent = 0 then (pr.sys.call N .clock).call N .CreateEvent
        else pr.sys.call N .clock) := by
    split
    · exact ((Sys.Extends.refl _).call (by simp)).call (by simp)
    · exact (Sys.Extends.refl _).call (by simp)
  have hc : ¬ (nfd > c.INT_MAX ∨ (0 : Int) < -1) := by omega
  refine ⟨?_, ⟨_, _, _, poll_zero_one_pass c N pr pfd nfd fuel hnfd hclock⟩, ?_⟩
  · cases fuel with
    | zero =>
      simp only [poll, if_neg hc, pollFrom, Outcome.nofuel_bind, Outcome.endSys]
      exact hs2
    | succ n =>
      rw [poll_zero_one_pass c N pr pfd nfd n hnfd hclock]
      exact Outcome.endSys_bind (g := fun o => o.sys)
        (hs2.trans ((pollPass_extends c N _ _ 0 _ _ _).mono hP))
        (fun a _ => Sys.Extends.refl _)
  · intro hov hopen hcap hwait
    cases fuel with
    | zero =>
      obtain ⟨s', h⟩ := hwait pr.sys [] 0 (by simp)
      simp [waitLoop] at h
    | succ n =>
      rw [poll_zero_one_pass c N pr pfd nfd n hnfd hclock, hov]
      obtain ⟨out, hout⟩ := pollPass_ok c N
        (if pr.hEvent = 0 then N.CreateEvent (pr.sys.call N .clock).w else pr.hEvent)
        (N.clock pr.sys.w + 0) 0 (n + 1)
        ⟨if pr.hEvent = 0 then (pr.sys.call N .clock).call N .CreateEvent
          else pr.sys.call N .clock, entriesOf pfd nfd, 0, pr.stack_ev⟩ hopen
        (by
          simp only
          cases pfd with
          | none => simp [entriesOf]
          | some l => simp only [entriesOf, List.length_take]; omega)
        hwait
      rw [hout]
      exact ⟨_, rfl⟩

theorem and_or_ne_zero_left {e a : Nat} (b : Nat) (h : e &&& a ≠ 0) : e &&& (a ||| b) ≠ 0 := by
  intro h0
  apply h
  have : e &&& a = (e &&& (a ||| b)) &&& a := by
    apply Nat.eq_of_testBit_eq
    intro i
    simp only [Nat.testBit_and, Nat.testBit_or]
    cases e.testBit i <;> cases a.testBit i <;> cases b.testBit i <;> rfl
  rw [this, h0, Nat.zero_and]

theorem and_or_ne_zero_right {e b : Nat} (a : Nat) (h : e &&& b ≠ 0) : e &&& (a ||| b) ≠ 0 := by
  rw [Nat.or_comm]
  exact and_or_ne_zero_left a h

theorem or_and_of_left {a m : Nat} (b : Nat) (h : a &&& m = m) : (a ||| b) &&& m = m := by
  have : (a ||| b) &&& m = (a &&& m) ||| (b &&& m) := Nat.and_distrib_right a b m
  rw [this, h]
  apply Nat.eq_of_testBit_eq
  intro i
  simp only [Nat.testBit_and, Nat.testBit_or]
  cases m.testBit i <;> cases b.testBit i <;> rfl

theorem or_and_of_right {b m : Nat} (a : Nat) (h : b &&& m = m) : (a ||| b) &&& m = m := by
  rw [Nat.or_comm]
  exact or_and_of_left a h

theorem toShort_eq_and (x : Nat) : toShort x = x &&& 65535 := by
  unfold toShort
  exact (Nat.and_pow_two_sub_one_eq_mod x 16).symm

theorem and_65535_of_lt {m : Nat} (h : m < 65536) : m &&& 65535 = m :=
  Nat.and_pow_two_sub_one_of_lt_two_pow (n := 16) h

theorem and_65535_and {m : Nat} (x : Nat) (h : m < 65536) : (x &&& 65535) &&& m = x &&& m := by
  rw [Nat.and_assoc, Nat.and_comm 65535 m, and_65535_of_lt h]

theorem toShort_of_lt {x : Nat} (h : x < 65536) : toShort x = x := by
  rw [toShort_eq_and, and_65535_of_lt h]

theorem toShort_and {m : Nat} (x : Nat) (h : m < 65536) : toShort x &&& m = x &&& m := by
  rw [toShort_eq_and, and_65535_and x h]

theorem sext16_and {m : Nat} (e : Nat) (h : m < 65536) : sext16 e &&& m = e &&& m := by
  have hmod : e % 65536 = e &&& 65535 := (Nat.and_pow_two_sub_one_eq_mod e 16).symm
  have hk : (0xFFFF0000 : Nat) &&& m = 0 := by
    have h0 : (0xFFFF0000 : Nat) &&& 65535 = 0 := by decide
    rw [← and_65535_of_lt h, ← Nat.and_assoc, Nat.and_comm _ m, Nat.and_assoc, h0,
      Nat.and_zero]
  unfold sext16
  split
  · rw [Nat.and_distrib_right, hk, Nat.or_zero, hmod, and_65535_and e h]
  · rw [hmod, and_65535_and e h]

theorem toShort_sext16_or (a b : Nat) : toShort (sext16 a ||| b) = toShort (a ||| b) := by
  rw [toShort_eq_and, toShort_eq_and, Nat.and_distrib_right, Nat.and_distrib_right,
    sext16_and a (by decide)]

/-- A bit of a `short` that is set in `revents` stays set when the result
loop stores `revents |= happened`. -/
theorem stored_contains {rev m : Nat} (happened : Nat) (hm : m < 65536) (h : rev &&& m = m) :
    toShort (sext16 rev ||| happened) &&& m = m := by
  rw [toShort_and _ hm]
  exact or_and_of_left _ (by rw [sext16_and _ hm]; exact h)

theorem stored_contains_happened {happened m : Nat} (rev : Nat) (hm : m < 65536)
    (h : happened &&& m = m) : toShort (sext16 rev ||| happened) &&& m = m := by
  rw [toShort_and _ hm]
  exact or_and_of_right _ h

theorem ne_zero_of_contains {x m : Nat} (h : x &&& m = m) (hm : m ≠ 0) : x ≠ 0 := by
  intro h0
  rw [h0, Nat.zero_and] at h
  exact hm h.symm

/-- What `windows_compute_revents` does on a pipe whose peek fails with
`ERROR_BROKEN_PIPE`. -/
theorem windows_compute_revents_broken {σ : Type} (c : Consts) (N : Native σ) (s : Sys σ)
    (h : HANDLE) (sought : Nat)
    (hpipe : ∀ w, N.GetFileType w h = c.FILE_TYPE_PIPE)
    (hbroken : ∀ w, N.PeekNamedPipe w h = .failed c.ERROR_BROKEN_PIPE) :
    windows_compute_revents c N s h sought
      = (c.POLLHUP, sought, (s.call N (.GetFileType h)).call N (.PeekNamedPipe h)) := by
  unfold windows_compute_revents
  simp only [hpipe, hbroken, if_true, Nat.zero_or]

theorem wrMask_classifyMask {c : Consts} {e : Nat} (h : e &&& c.wrMask ≠ 0) :
    e &&& c.classifyMask ≠ 0 := by
  have h5 : e &&& c.resultMask ≠ 0 := by
    unfold Consts.resultMask
    unfold Consts.wrMask at h
    by_cases h1 : e &&& c.POLLOUT ≠ 0
    · exact and_or_ne_zero_left _ (and_or_ne_zero_left _ (and_or_ne_zero_right _ h1))
    by_cases h2 : e &&& c.POLLWRNORM ≠ 0
    · exact and_or_ne_zero_left _ (and_or_ne_zero_right _ h2)
    by_cases h3 : e &&& c.POLLWRBAND ≠ 0
    · exact and_or_ne_zero_right _ h3
    exfalso
    apply h
    simp only [ne_eq, not_not] at h1 h2 h3
    rw [Nat.and_or_distrib_left, Nat.and_or_distrib_left, h1, h2, h3]
    rfl
  unfold Consts.classifyMask
  unfold Consts.resultMask at h5
  exact and_or_ne_zero_left _ (and_or_ne_zero_left _ h5)

theorem wrMask_resultMask {c : Consts} {e : Nat} (h : e &&& c.wrMask ≠ 0) :
    e &&& c.resultMask ≠ 0 := by
  unfold Consts.resultMask
  unfold Consts.wrMask at h
  by_cases h1 : e &&& c.POLLOUT ≠ 0
  · exact and_or_ne_zero_left _ (and_or_ne_zero_left _ (and_or_ne_zero_right _ h1))
  by_cases h2 : e &&& c.POLLWRNORM ≠ 0
  · exact and_or_ne_zero_left _ (and_or_ne_zero_right _ h2)
  by_cases h3 : e &&& c.POLLWRBAND ≠ 0
  · exact and_or_ne_zero_right _ h3
  exfalso
  apply h
  simp only [ne_eq, not_not] at h1 h2 h3
  rw [Nat.and_or_distrib_left, Nat.and_or_distrib_left, h1, h2, h3]
  rfl

theorem resultMask_classifyMask {c : Consts} {e : Nat} (h : e &&& c.resultMask ≠ 0) :
    e &&& c.classifyMask ≠ 0 := by
  unfold Consts.classifyMask
  unfold Consts.resultMask at h
  exact and_or_ne_zero_left _ (and_or_ne_zero_left _ h)

/-- The classification loop on an entry whose descriptor is a broken pipe. -/
theorem classifyEntry_broken {σ : Type} (c : Consts) (N : Native σ) (hEvent : HANDLE)
    (p : pollfd) (st : CState σ) (h : HANDLE)
    (hfd : 0 ≤ p.fd) (hreq : sext16 p.events &&& c.classifyMask ≠ 0)
    (hh : ∀ w, N.get_osfhandle w p.fd = h) (hnull : h ≠ 0)
    (hns : ∀ s : Sys σ, (IsSocketHandle N s h).1 = false)
    (hpipe : ∀ w, N.GetFileType w h = c.FILE_TYPE_PIPE)
    (hbroken : ∀ w, N.PeekNamedPipe w h = .failed c.ERROR_BROKEN_PIPE)
    (hhup : c.POLLHUP < 65536) (hhup0 : c.POLLHUP ≠ 0)
    (hcap : st.handle_array.length < c.FD_SETSIZE + 2) :
    classifyEntry c N hEvent p st
      = .ret ({ p with revents := c.POLLHUP },
          { st with
            sys := (((IsSocketHandle N (st.sys.call N (.get_osfhandle p.fd)) h).2.call N
              (.GetFileType h)).call N (.PeekNamedPipe h))
            handle_array := st.handle_array ++ [h]
            timeout := 0 }) := by
  have hsought : sext16 p.events ≠ 0 := by
    intro h0
    rw [h0, Nat.zero_and] at hreq
    exact hreq rfl
  unfold classifyEntry
  simp only [hh, hns, windows_compute_revents_broken c N _ h _ hpipe hbroken,
    toShort_of_lt hhup]
  rw [if_neg (by omega), if_neg hreq, if_neg hnull]
  simp [hsought, hcap, hhup0]

/-- The result loop on the entry of a broken pipe whose handle is the next
one in `handle_array`. -/
theorem resultEntry_broken {σ : Type} (c : Consts) (N : Native σ) (harr : List HANDLE)
    (rfds wfds xfds : fd_set) (p : pollfd) (st : RState σ) (h : HANDLE)
    (hfd : 0 ≤ p.fd) (hreq : sext16 p.events &&& c.resultMask ≠ 0)
    (hh : ∀ w, N.get_osfhandle w p.fd = h)
    (hslot : harr[st.nhandles]? = some h)
    (hpipe : ∀ w, N.GetFileType w h = c.FILE_TYPE_PIPE)
    (hbroken : ∀ w, N.PeekNamedPipe w h = .failed c.ERROR_BROKEN_PIPE)
    (hhup : c.POLLHUP < 65536) (hhup0 : c.POLLHUP ≠ 0)
    (hrev : p.revents = c.POLLHUP) :
    resultEntry c N harr rfds wfds xfds p st
      = .ret ({ p with revents := c.POLLHUP },
          { st with
            sys := ((st.sys.call N (.get_osfhandle p.fd)).call N (.GetFileType h)).call N
              (.PeekNamedPipe h)
            nhandles := st.nhandles + 1
            rc := st.rc + 1 }) := by
  have hstore : toShort (sext16 c.POLLHUP ||| c.POLLHUP) = c.POLLHUP := by
    rw [toShort_sext16_or, Nat.or_self, toShort_of_lt hhup]
  unfold resultEntry
  simp only [hh, hslot, windows_compute_revents_broken c N _ h _ hpipe hbroken]
  rw [if_neg (by omega), if_neg hreq]
  simp [storeResult, hrev, hstore, hhup0]

theorem stdConsts_sane : stdConsts.PollSane :=
  ⟨by decide, by decide, by decide, by decide, by decide, by decide, by decide, by decide⟩

/-- Claim C10. On a set of one entry whose descriptor is a pipe handle
that is not a socket and whose peek fails with `ERROR_BROKEN_PIPE`, with a
mask that requests a writable bit and any accepted timeout (the infinite one
included), `poll` returns 1 once the wait loop has come to an end, and
`revents` of the entry is exactly `POLLHUP`, which holds no readable and no
writable bit. -/
theorem poll_broken_pipe_write {σ : Type} (c : Consts) (N : Native σ) (pr : Proc σ)
    (p : pollfd) (rest : List pollfd) (h : HANDLE) (timeout : Int) (fuel : Nat)
    (hc : c.PollSane) (hintmax : 1 ≤ c.INT_MAX)
    (hfd : 0 ≤ p.fd) (hreq : p.events &&& c.wrMask ≠ 0)
    (hh : ∀ w, N.get_osfhandle w p.fd = h) (hnull : h ≠ 0)
    (hns : ∀ s : Sys σ, (IsSocketHandle N s h).1 = false)
    (hpipe : ∀ w, N.GetFileType w h = c.FILE_TYPE_PIPE)
    (hbroken : ∀ w, N.PeekNamedPipe w h = .failed c.ERROR_BROKEN_PIPE)
    (htimeout : -1 ≤ timeout) (hwait : WaitTerminates c N fuel) :
    ∃ r, poll c N pr (some (p :: rest)) 1 timeout fuel = .ret r
      ∧ r.ret = 1
      ∧ r.pfd = some ({ p with revents := c.POLLHUP } :: rest)
      ∧ c.POLLHUP &&& (c.rdMask ||| c.wrMask) = 0 := by
  have hcond : ¬ (1 > c.INT_MAX ∨ timeout < -1) := by omega
  have hreq7 : sext16 p.events &&& c.classifyMask ≠ 0 := by
    rw [sext16_and _ hc.classify_lt]; exact wrMask_classifyMask hreq
  have hreq5 : sext16 p.events &&& c.resultMask ≠ 0 := by
    rw [sext16_and _ hc.result_lt]; exact wrMask_resultMask hreq
  have hss := hc.setsize
  cases fuel with
  | zero =>
    obtain ⟨s', h⟩ := hwait pr.sys [] 0 (by simp)
    simp [waitLoop] at h
  | succ n =>
    simp only [poll, if_neg hcond, pollFrom, entriesOf, overrunOf, storeEntries, List.take_succ_cons,
      List.take_zero, List.drop_succ_cons, List.drop_zero, List.length_cons]
    generalize hE : (if pr.hEvent = 0 then N.CreateEvent (pr.sys.call N .clock).w
      else pr.hEvent) = hEvent
    generalize hS : (if pr.hEvent = 0 then (pr.sys.call N .clock).call N .CreateEvent
      else pr.sys.call N .clock) = s2
    generalize hT : N.clock pr.sys.w + timeout = tend
    have hcl := classifyEntry_broken c N hEvent p
      ⟨(remaining N tend timeout ⟨s2, [p], 0, pr.stack_ev⟩).2, [hEvent], [], [], [], timeout⟩
      h hfd hreq7 hh hnull hns hpipe hbroken hc.hup_lt hc.hup_ne
      (by simp only [List.length_singleton]; omega)
    simp only [List.singleton_append] at hcl
    generalize hS3 : (((IsSocketHandle N
      ((remaining N tend timeout ⟨s2, [p], 0, pr.stack_ev⟩).2.call N (.get_osfhandle p.fd))
      h).2.call N (.GetFileType h)).call N (.PeekNamedPipe h)) = sc at hcl
    obtain ⟨s3, hs3⟩ := hwait (sc.call N (.select [] [] [])) [hEvent, h]
      (waitTimeout c (N.select sc.w [] [] []).1 0) (by simp)
    have hpass : pollPass c N hEvent tend timeout
        (decide (rest.length + 1 < 1)) (n + 1) ⟨s2, [p], 0, pr.stack_ev⟩
        = .ret ⟨(((selectAgain N (N.select sc.w [] [] []).1 (N.select sc.w [] [] []).2.1
              (N.select sc.w [] [] []).2.2.1 (N.select sc.w [] [] []).2.2.2 s3).2.2.2.call N
              (.get_osfhandle p.fd)).call N (.GetFileType h)).call N (.PeekNamedPipe h),
            [{ p with revents := c.POLLHUP }],
            (remaining N tend timeout ⟨s2, [p], 0, pr.stack_ev⟩).1, pr.stack_ev, 1, 2⟩ := by
      have hdec : decide (rest.length + 1 < 1) = false := by simp
      simp only [pollPass, classify, hcl, Outcome.ret_bind, hdec, Bool.false_eq_true, if_false,
        hs3, List.length_cons, List.length_nil]
      rw [if_neg (by omega)]
      have hres := resultEntry_broken c N ([hEvent, h] ++ [0])
        (selectAgain N (N.select sc.w [] [] []).1 (N.select sc.w [] [] []).2.1
              (N.select sc.w [] [] []).2.2.1 (N.select sc.w [] [] []).2.2.2 s3).1
        (selectAgain N (N.select sc.w [] [] []).1 (N.select sc.w [] [] []).2.1
              (N.select sc.w [] [] []).2.2.1 (N.select sc.w [] [] []).2.2.2 s3).2.1
        (selectAgain N (N.select sc.w [] [] []).1 (N.select sc.w [] [] []).2.1
              (N.select sc.w [] [] []).2.2.1 (N.select sc.w [] [] []).2.2.2 s3).2.2.1
        { p with revents := c.POLLHUP }
        ⟨(selectAgain N (N.select sc.w [] [] []).1 (N.select sc.w [] [] []).2.1
              (N.select sc.w [] [] []).2.2.1 (N.select sc.w [] [] []).2.2.2 s3).2.2.2,
          1, pr.stack_ev, 0⟩ h hfd hreq5 hh (by rfl) hpipe hbroken hc.hup_lt hc.hup_ne rfl
      simp only [results, hres, Outcome.ret_bind]
    rw [hpass]
    simp only [Outcome.ret_bind]
    rw [if_neg (by simp)]
    exact ⟨_, rfl, by simp, by simp, hc.hup_disj⟩

theorem classify_get {σ : Type} {c : Consts} {N : Native σ} {hEvent : HANDLE}
    {ps : List pollfd} {st : CState σ} {r : List pollfd × CState σ}
    (h : classify c N hEvent ps st = .ret r) {i : Nat} {p : pollfd}
    (hp : ps[i]? = some p) :
    ∃ q st0 st1, r.1[i]? = some q ∧ classifyEntry c N hEvent p st0 = .ret (q, st1) := by
  induction ps generalizing st r i with
  | nil => simp at hp
  | cons p0 ps ih =>
    simp only [classify] at h
    obtain ⟨a, h1, h2⟩ := Outcome.bind_eq_ret h
    obtain ⟨b, h3, h4⟩ := Outcome.bind_eq_ret h2
    cases h4
    cases i with
    | zero =>
      simp only [List.getElem?_cons_zero, Option.some.injEq] at hp
      subst hp
      exact ⟨a.1, st, a.2, by simp, h1⟩
    | succ j =>
      simp only [List.getElem?_cons_succ] at hp
      obtain ⟨q, st0, st1, hq, hcl⟩ := ih h3 hp
      exact ⟨q, st0, st1, by simpa using hq, hcl⟩

theorem resultEntry_nhandles {σ : Type} {c : Consts} {N : Native σ} {harr : List HANDLE}
    {rfds wfds xfds : fd_set} {p : pollfd} {st : RState σ} {r : pollfd × RState σ}
    (h : resultEntry c N harr rfds wfds xfds p st = .ret r) :
    st.nhandles ≤ r.2.nhandles := by
  unfold resultEntry at h
  simp only at h
  repeat' split at h
  all_goals first
    | cases h; simp [storeResult]
    | cases h

theorem results_get {σ : Type} {c : Consts} {N : Native σ} {harr : List HANDLE}
    {rfds wfds xfds : fd_set} {ps : List pollfd} {st : RState σ} {r : List pollfd × RState σ}
    (h : results c N harr rfds wfds xfds ps st = .ret r) (hn : 1 ≤ st.nhandles)
    {i : Nat} {p : pollfd} (hp : ps[i]? = some p) :
    ∃ q st0 st1, r.1[i]? = some q
      ∧ resultEntry c N harr rfds wfds xfds p st0 = .ret (q, st1) ∧ 1 ≤ st0.nhandles := by
  induction ps generalizing st r i with
  | nil => simp at hp
  | cons p0 ps ih =>
    simp only [results] at h
    obtain ⟨a, h1, h2⟩ := Outcome.bind_eq_ret h
    obtain ⟨b, h3, h4⟩ := Outcome.bind_eq_ret h2
    cases h4
    cases i with
    | zero =>
      simp only [List.getElem?_cons_zero, Option.some.injEq] at hp
      subst hp
      exact ⟨a.1, st, a.2, by simp, h1, hn⟩
    | succ j =>
      simp only [List.getElem?_cons_succ] at hp
      have hn2 : 1 ≤ a.2.nhandles := le_trans hn (resultEntry_nhandles h1)
      obtain ⟨q, st0, st1, hq, hcl, hn0⟩ := ih h3 hn2 hp
      exact ⟨q, st0, st1, by simpa using hq, hcl, hn0⟩

/-- A bit of a `short` that is set in `revents` before an iteration of the
result loop is set after it. -/
theorem resultEntry_contains {σ : Type} {c : Consts} {N : Native σ} {harr : List HANDLE}
    {rfds wfds xfds : fd_set} {p : pollfd} {st : RState σ} {r : pollfd × RState σ}
    (h : resultEntry c N harr rfds wfds xfds p st = .ret r) {m : Nat} (hm : m < 65536)
    (hrev : p.revents &&& m = m) : r.1.revents &&& m = m := by
  unfold resultEntry at h
  simp only at h
  repeat' split at h
  all_goals first
    | cases h; exact hrev
    | cases h; exact stored_contains _ hm hrev
    | cases h

/-- An entry of a broken pipe that requests one of the bits the
classification loop looks at leaves that loop with `revents = POLLHUP`. -/
theorem classifyEntry_broken_revents {σ : Type} {c : Consts} {N : Native σ} {hEvent : HANDLE}
    {p : pollfd} {st : CState σ} {r : pollfd × CState σ}
    (h : classifyEntry c N hEvent p st = .ret r)
    (hfd : 0 ≤ p.fd) (hreq : sext16 p.events &&& c.classifyMask ≠ 0)
    (hpipe : BrokenPipe c N p.fd) (hhup : c.POLLHUP < 65536) :
    r.1.revents = c.POLLHUP := by
  obtain ⟨hns, hft, hpk⟩ := hpipe st.sys.w
  unfold classifyEntry at h
  simp only [hns, windows_compute_revents_broken c N _ _ _ hft hpk, toShort_of_lt hhup] at h
  rw [if_neg (by omega), if_neg hreq] at h
  split at h
  · cases h
  · simp only [Bool.false_eq_true, if_false] at h
    split at h
    · cases h
    · cases h; rfl

theorem mergeSelected_contains (c : Consts) (h : HANDLE) (rfds wfds xfds : fd_set) (ev m : Nat)
    (hev : ev &&& m = m) : mergeSelected c h rfds wfds xfds ev &&& m = m := by
  unfold mergeSelected
  simp only
  have h1 : (if FD_ISSET h rfds = true ∧ ev &&& (c.FD_READ ||| c.FD_ACCEPT) = 0
      then ev ||| (c.FD_READ ||| c.FD_ACCEPT) else ev) &&& m = m := by
    split
    · exact or_and_of_left _ hev
    · exact hev
  generalize (if FD_ISSET h rfds = true ∧ ev &&& (c.FD_READ ||| c.FD_ACCEPT) = 0
      then ev ||| (c.FD_READ ||| c.FD_ACCEPT) else ev) = ev1 at h1 ⊢
  have h2 : (if FD_ISSET h wfds = true then ev1 ||| (c.FD_WRITE ||| c.FD_CONNECT) else ev1)
      &&& m = m := by
    split
    · exact or_and_of_left _ h1
    · exact h1
  generalize (if FD_ISSET h wfds = true then ev1 ||| (c.FD_WRITE ||| c.FD_CONNECT) else ev1)
    = ev2 at h2 ⊢
  split
  · exact or_and_of_left _ h2
  · exact h2

/-- On a close notification with a 0-byte peek the socket probe reports
`POLLHUP`. -/
theorem windows_compute_revents_socket_hup {σ : Type} (c : Consts) (N : Native σ) (s : Sys σ)
    (h : HANDLE) (sought ev : Nat) (hc : c.PollSane)
    (hev : ev &&& c.FD_CLOSE = c.FD_CLOSE)
    (hrecv : (N.recv s.w h).1 = 0 ∧ (N.recv s.w h).2 ≠ c.WSAENOTCONN) :
    (windows_compute_revents_socket c N s h sought ev).1 &&& c.POLLHUP = c.POLLHUP := by
  have hsub : (ev &&& (c.FD_READ ||| c.FD_ACCEPT ||| c.FD_CLOSE)) &&& c.FD_CLOSE = c.FD_CLOSE := by
    have : (ev &&& (c.FD_READ ||| c.FD_ACCEPT ||| c.FD_CLOSE)) &&& c.FD_CLOSE
        = ev &&& c.FD_CLOSE := by
      apply Nat.eq_of_testBit_eq
      intro i
      simp only [Nat.testBit_and, Nat.testBit_or]
      cases ev.testBit i <;> cases c.FD_READ.testBit i <;> cases c.FD_ACCEPT.testBit i
        <;> cases c.FD_CLOSE.testBit i <;> rfl
    rw [this, hev]
  have h1 : ¬ ev &&& (c.FD_READ ||| c.FD_ACCEPT ||| c.FD_CLOSE) = c.FD_ACCEPT := by
    intro heq
    rw [heq] at hsub
    exact hc.accept_close hsub
  have h2 : ev &&& (c.FD_READ ||| c.FD_ACCEPT ||| c.FD_CLOSE) ≠ 0 :=
    ne_zero_of_contains hsub hc.close_ne
  have hrd : (socketReadSide c N s h sought ev 0).1 = c.POLLHUP := by
    unfold socketReadSide
    rw [if_neg h1, if_pos h2]
    simp only [hrecv.1, lt_self_iff_false, false_or, hrecv.2, if_false, true_or, if_true,
      Nat.zero_or]
  unfold windows_compute_revents_socket
  simp only [hrd]
  split <;> split
  · exact or_and_of_left _ (or_and_of_left _ (Nat.and_self _))
  · exact or_and_of_left _ (Nat.and_self _)
  · exact or_and_of_left _ (Nat.and_self _)
  · exact Nat.and_self _

/-- The result loop on the entry of a closed socket reports `POLLHUP`. -/
theorem resultEntry_socket_hup {σ : Type} {c : Consts} {N : Native σ} {hEvent : HANDLE}
    {added : List HANDLE} {rfds wfds xfds : fd_set} {p : pollfd} {st : RState σ}
    {r : pollfd × RState σ} (hc : c.PollSane)
    (h : resultEntry c N ((hEvent :: added) ++ [0]) rfds wfds xfds p st = .ret r)
    (hadd : ∀ x ∈ added, NonSocket N x)
    (hn : 1 ≤ st.nhandles) (hfd : 0 ≤ p.fd) (hreq : sext16 p.events &&& c.resultMask ≠ 0)
    (hsock : ClosedSocket c N p.fd) : r.1.revents &&& c.POLLHUP = c.POLLHUP := by
  obtain ⟨hnull, hs, henum, _⟩ := hsock st.sys.w
  obtain ⟨v, hv, hvc⟩ := henum (st.sys.call N (.get_osfhandle p.fd)).w
  unfold resultEntry at h
  simp only at h
  rw [if_neg (by omega), if_neg hreq] at h
  split at h
  · cases h
  · rename_i slot hslot
    have hne : N.get_osfhandle st.sys.w p.fd ≠ slot := by
      obtain ⟨k, hk⟩ : ∃ k, st.nhandles = k + 1 := ⟨st.nhandles - 1, by omega⟩
      rw [hk] at hslot
      simp only [List.cons_append, List.getElem?_cons_succ] at hslot
      have hmem := List.getElem?_mem hslot
      rcases List.mem_append.1 hmem with hm | hm
      · obtain ⟨s, hsx⟩ := hadd slot hm
        intro heq
        rw [← heq, hs s] at hsx
        cases hsx
      · simp only [List.mem_singleton] at hm
        rw [hm]
        exact hnull
    rw [if_pos hne] at h
    cases h
    simp only [storeResult, hv, Option.getD_some]
    refine stored_contains_happened _ hc.hup_lt ?_
    exact windows_compute_revents_socket_hup c N _ _ _ _ hc
      (mergeSelected_contains c _ _ _ _ _ _ hvc) ((hsock st.sys.w).2.2.2 _)

theorem pollPass_keys {σ : Type} {c : Consts} {N : Native σ} {hEvent : HANDLE} {tend : Int}
    {save_timeout : Int} {overrun : Bool} {waitFuel : Nat} {st : PollState σ} {out : PassOut σ}
    (h : pollPass c N hEvent tend save_timeout overrun waitFuel st = .ret out) :
    out.entries.map clearRevents = st.entries.map clearRevents := by
  obtain ⟨cl, s3, rl, hcl, _, _, _, hrl, rfl⟩ := pollPass_ret h
  simp only
  rw [results_keys hrl, classify_keys hcl]

/-- When `poll` returns, it returns from a pass that started with entries
that have the descriptors and event masks of the table, and that did not ask
for a restart. -/
theorem pollFrom_final {σ : Type} {c : Consts} {N : Native σ} {hEvent : HANDLE} {tend : Int}
    {save_timeout : Int} {overrun : Bool} {waitFuel : Nat} {fuel : Nat} {st : PollState σ}
    {out : PassOut σ}
    (h : pollFrom c N hEvent tend save_timeout overrun waitFuel fuel st = .ret out) :
    ∃ st1 : PollState σ, st1.entries.map clearRevents = st.entries.map clearRevents
      ∧ pollPass c N hEvent tend save_timeout overrun waitFuel st1 = .ret out := by
  induction fuel generalizing st with
  | zero => simp [pollFrom] at h
  | succ n ih =>
    rw [pollFrom] at h
    obtain ⟨o1, h1, h2⟩ := Outcome.bind_eq_ret h
    split at h2
    · obtain ⟨st1, hk, hp⟩ := ih h2
      exact ⟨st1, by rw [hk]; exact pollPass_keys h1, hp⟩
    · cases h2
      exact ⟨st, rfl, h1⟩

theorem getElem?_of_keys {ps qs : List pollfd} (hk : qs.map clearRevents = ps.map clearRevents)
    {i : Nat} {p : pollfd} (hp : ps[i]? = some p) :
    ∃ q, qs[i]? = some q ∧ q.fd = p.fd ∧ q.events = p.events := by
  have h1 : (ps.map clearRevents)[i]? = some (clearRevents p) := by
    rw [List.getElem?_map, hp]; rfl
  rw [← hk, List.getElem?_map] at h1
  cases hq : qs[i]? with
  | none => rw [hq] at h1; cases h1
  | some q =>
    rw [hq] at h1
    simp only [Option.map_some', Option.some.injEq] at h1
    exact ⟨q, rfl, (keys_of_clear h1).1, (keys_of_clear h1).2⟩

/-- Hang-up in one pass: the entry of a broken pipe or of a closed socket
leaves the pass with `POLLHUP` in `revents`. -/
theorem pollPass_hup {σ : Type} {c : Consts} {N : Native σ} {hEvent : HANDLE} {tend : Int}
    {save_timeout : Int} {overrun : Bool} {waitFuel : Nat} {st : PollState σ} {out : PassOut σ}
    (hc : c.PollSane)
    (h : pollPass c N hEvent tend save_timeout overrun waitFuel st = .ret out)
    {i : Nat} {p : pollfd} (hp : st.entries[i]? = some p) (hfd : 0 ≤ p.fd)
    (hup : (BrokenPipe c N p.fd ∧ p.events &&& c.classifyMask ≠ 0)
      ∨ (ClosedSocket c N p.fd ∧ p.events &&& c.resultMask ≠ 0)) :
    ∃ q, out.entries[i]? = some q ∧ q.fd = p.fd ∧ q.events = p.events
      ∧ q.revents &&& c.POLLHUP = c.POLLHUP := by
  obtain ⟨cl, s3, rl, hcl, _, _, _, hrl, rfl⟩ := pollPass_ret h
  obtain ⟨q1, cs0, cs1, hq1, hce⟩ := classify_get hcl hp
  obtain ⟨added, hadd, hns⟩ := classify_handles hcl
  simp only [List.singleton_append] at hadd
  rw [hadd] at hrl
  obtain ⟨q2, rs0, rs1, hq2, hre, hn⟩ := results_get hrl (le_refl 1) hq1
  have hk1 := classifyEntry_keys hce
  have hk2 := resultEntry_keys hre
  have hfd1 : q1.fd = p.fd := (keys_of_clear hk1).1
  have hev1 : q1.events = p.events := (keys_of_clear hk1).2
  have hfd2 : q2.fd = q1.fd := (keys_of_clear hk2).1
  have hev2 : q2.events = q1.events := (keys_of_clear hk2).2
  refine ⟨q2, hq2, hfd2.trans hfd1, hev2.trans hev1, ?_⟩
  rcases hup with ⟨hpipe, hreq⟩ | ⟨hsock, hreq⟩
  · have hrev : q1.revents = c.POLLHUP :=
      classifyEntry_broken_revents hce hfd
        (by rw [sext16_and _ hc.classify_lt]; exact hreq) hpipe hc.hup_lt
    exact resultEntry_contains hre hc.hup_lt (by rw [hrev, Nat.and_self])
  · exact resultEntry_socket_hup hc hre (fun x hx => (hns x hx).1) hn
      (by rw [hfd1]; exact hfd)
      (by rw [hev1, sext16_and _ hc.result_lt]; exact hreq)
      (by rw [hfd1]; exact hsock)

theorem resultEntry_rc {σ : Type} {c : Consts} {N : Native σ} {harr : List HANDLE}
    {rfds wfds xfds : fd_set} {p : pollfd} {st : RState σ} {r : pollfd × RState σ}
    (h : resultEntry c N harr rfds wfds xfds p st = .ret r) :
    (counted c r.1 = true → st.rc < r.2.rc) ∧ st.rc ≤ r.2.rc := by
  unfold resultEntry at h
  simp only at h
  split at h
  · rename_i hneg
    cases h
    exact ⟨by simp [counted, hneg], le_refl _⟩
  split at h
  · rename_i hz
    cases h
    exact ⟨by simp [counted, hz], le_refl _⟩
  split at h
  · cases h
  split at h
  · cases h
    simp only [storeResult, counted]
    constructor
    · intro hcnt
      simp only [Bool.and_eq_true, decide_eq_true_eq] at hcnt
      rw [if_pos hcnt.2]
      omega
    · split <;> omega
  · cases h
    simp only [storeResult, counted]
    constructor
    · intro hcnt
      simp only [Bool.and_eq_true, decide_eq_true_eq] at hcnt
      rw [if_pos hcnt.2]
      omega
    · split <;> omega

theorem results_rc {σ : Type} {c : Consts} {N : Native σ} {harr : List HANDLE}
    {rfds wfds xfds : fd_set} {ps : List pollfd} {st : RState σ} {r : List pollfd × RState σ}
    (h : results c N harr rfds wfds xfds ps st = .ret r) :
    ((∃ q ∈ r.1, counted c q = true) → st.rc < r.2.rc) ∧ st.rc ≤ r.2.rc := by
  induction ps generalizing st r with
  | nil =>
    simp only [results] at h
    cases h
    exact ⟨by simp, le_refl _⟩
  | cons p ps ih =>
    simp only [results] at h
    obtain ⟨a, h1, h2⟩ := Outcome.bind_eq_ret h
    obtain ⟨b, h3, h4⟩ := Outcome.bind_eq_ret h2
    cases h4
    obtain ⟨ha1, ha2⟩ := resultEntry_rc h1
    obtain ⟨hb1, hb2⟩ := ih h3
    refine ⟨?_, le_trans ha2 hb2⟩
    rintro ⟨q, hq, hcnt⟩
    rcases List.mem_cons.1 hq with hq | hq
    · subst hq
      exact lt_of_lt_of_le (ha1 hcnt) hb2
    · exact lt_of_le_of_lt ha2 (hb1 ⟨q, hq, hcnt⟩)

theorem pollPass_rc {σ : Type} {c : Consts} {N : Native σ} {hEvent : HANDLE} {tend : Int}
    {save_timeout : Int} {overrun : Bool} {waitFuel : Nat} {st : PollState σ} {out : PassOut σ}
    (h : pollPass c N hEvent tend save_timeout overrun waitFuel st = .ret out)
    (hq : ∃ q ∈ out.entries, counted c q = true) : 0 < out.rc := by
  obtain ⟨cl, s3, rl, _, _, _, _, hrl, rfl⟩ := pollPass_ret h
  exact (results_rc hrl).1 hq

/-- Claim C9, amended. Let entry `i < nfd` have a valid descriptor, and
let it be either a broken pipe whose mask requests one of the seven bits the
classification loop tests, or a closed socket (close notification, peek of 0
bytes) whose mask requests one of the five bits the result loop tests.  Then
whenever `poll` returns, `revents` of that entry contains `POLLHUP`.  And
`poll` does return when the mask requests one of the five bits of the result
loop, the table holds the `nfd` entries, no descriptor of the set resolves to
`NULL`, the set has at most `FD_SETSIZE` entries and the wait loop comes to an
end. -/
theorem poll_reports_hangup {σ : Type} (c : Consts) (N : Native σ) (pr : Proc σ)
    (l : List pollfd) (nfd : Nat) (timeout : Int) (fuel : Nat) (i : Nat) (p : pollfd)
    (hc : c.PollSane) (hnfd : nfd ≤ c.INT_MAX) (htimeout : -1 ≤ timeout)
    (hi : i < nfd) (hp : l[i]? = some p) (hfd : 0 ≤ p.fd)
    (hup : (BrokenPipe c N p.fd ∧ p.events &&& c.classifyMask ≠ 0)
      ∨ (ClosedSocket c N p.fd ∧ p.events &&& c.resultMask ≠ 0)) :
    (∀ r, poll c N pr (some l) nfd timeout fuel = .ret r →
        ∃ tbl q, r.pfd = some tbl ∧ tbl[i]? = some q ∧ q.fd = p.fd ∧ q.events = p.events
          ∧ q.revents &&& c.POLLHUP = c.POLLHUP)
    ∧ (p.events &&& c.resultMask ≠ 0 → nfd ≤ l.length →
        (∀ q ∈ l.take nfd, ∀ w, N.get_osfhandle w q.fd ≠ 0) → nfd ≤ c.FD_SETSIZE →
        WaitTerminates c N fuel → ∃ r, poll c N pr (some l) nfd timeout fuel = .ret r) := by
  have hcond : ¬ (nfd > c.INT_MAX ∨ timeout < -1) := by omega
  have hp0 : (entriesOf (some l) nfd)[i]? = some p := by
    simp only [entriesOf, List.getElem?_take, hi, if_true, hp]
  constructor
  · intro r h
    simp only [poll, if_neg hcond] at h
    obtain ⟨out, hout, hr⟩ := Outcome.bind_eq_ret h
    cases hr
    obtain ⟨st1, hk, hpass⟩ := pollFrom_final hout
    obtain ⟨p1, hp1, hfd1, hev1⟩ := getElem?_of_keys hk hp0
    obtain ⟨q, hq, hqfd, hqev, hqrev⟩ := pollPass_hup hc hpass hp1 (by rw [hfd1]; exact hfd)
      (by rw [hfd1, hev1]; exact hup)
    refine ⟨_, q, rfl, ?_, hqfd.trans hfd1, hqev.trans hev1, hqrev⟩
    have hlt : i < out.entries.length := by
      by_contra hge
      rw [List.getElem?_eq_none (by omega)] at hq
      cases hq
    rw [List.getElem?_append_left hlt]
    exact hq
  · intro hreq hlen hopen hcap hwait
    cases fuel with
    | zero =>
      obtain ⟨s', h⟩ := hwait pr.sys [] 0 (by simp)
      simp [waitLoop] at h
    | succ n =>
      have hov : overrunOf (some l) nfd = false := by simp [overrunOf]; omega
      simp only [poll, if_neg hcond, hov, pollFrom]
      obtain ⟨out, hout⟩ := pollPass_ok c N
        (if pr.hEvent = 0 then N.CreateEvent (pr.sys.call N .clock).w else pr.hEvent)
        (N.clock pr.sys.w + timeout) timeout (n + 1)
        ⟨if pr.hEvent = 0 then (pr.sys.call N .clock).call N .CreateEvent
          else pr.sys.call N .clock, entriesOf (some l) nfd, 0, pr.stack_ev⟩ hopen
        (by simp only [entriesOf, List.length_take]; omega) hwait
      obtain ⟨q, hq, hqfd, hqev, hqrev⟩ := pollPass_hup hc hout hp0 hfd hup
      have hrc : 0 < out.rc := by
        refine pollPass_rc hout ⟨q, List.getElem?_mem hq, ?_⟩
        simp only [counted, Bool.and_eq_true, decide_eq_true_eq]
        refine ⟨⟨by rw [hqfd]; exact hfd, ?_⟩, ne_zero_of_contains hqrev hc.hup_ne⟩
        rw [hqev, sext16_and _ hc.result_lt]
        exact hreq
      rw [hout]
      simp only [Outcome.ret_bind]
      rw [if_neg (by omega)]
      exact ⟨_, rfl⟩

theorem do_lock_eq {σ : Type} (c : Consts) (N : Native σ) (s : Sys σ) (h : HANDLE)
    (non_blocking exclusive : Nat) :
    do_lock c N s h non_blocking exclusive
      = (N.LockFileEx (s.call N (.GetFileSize h)).w h (lockFlags c non_blocking exclusive)
            (N.GetFileSize s.w h).1 (N.GetFileSize s.w h).2,
          (s.call N (.GetFileSize h)).call N
            (.LockFileEx h (lockFlags c non_blocking exclusive) 0 0
              (N.GetFileSize s.w h).1 (N.GetFileSize s.w h).2)) := by
  simp [do_lock, file_size, lockFlags]

theorem do_unlock_eq {σ : Type} (N : Native σ) (s : Sys σ) (h : HANDLE) :
    do_unlock N s h
      = (N.UnlockFile (s.call N (.GetFileSize h)).w h
            (N.GetFileSize s.w h).1 (N.GetFileSize s.w h).2,
          (s.call N (.GetFileSize h)).call N
            (.UnlockFile h 0 0 (N.GetFileSize s.w h).1 (N.GetFileSize s.w h).2)) := by
  simp [do_unlock, file_size]

/-- Claim C7. `flock` returns -1 with `errno = EBADF` when the handle of
`fd` is `INVALID_HANDLE_VALUE`, whatever the operation.  Otherwise, when the
operation without `LOCK_NB` is none of `LOCK_SH`, `LOCK_EX`, `LOCK_UN`, it
returns -1 with `errno = EINVAL` after `_get_osfhandle` alone, without a
native lock or unlock call.  Otherwise it issues one `LockFileEx` or
`UnlockFile`, returns 0 if and only if that call reports success, and on
failure returns -1 with `errno` set to the value of `err_win_to_posix ()`. -/
theorem flock_classifies_failures {σ : Type} (c : Consts) (N : Native σ) (pr : Proc σ)
    (fd : Int) (operation : Nat) :
    (N.get_osfhandle pr.sys.w fd = c.INVALID_HANDLE_VALUE →
        flock c N pr fd operation = ⟨-1, c.EBADF, pr.sys.call N (.get_osfhandle fd)⟩)
    ∧ (N.get_osfhandle pr.sys.w fd ≠ c.INVALID_HANDLE_VALUE →
        operation &&& not32 c.LOCK_NB ≠ c.LOCK_SH →
        operation &&& not32 c.LOCK_NB ≠ c.LOCK_EX →
        operation &&& not32 c.LOCK_NB ≠ c.LOCK_UN →
        flock c N pr fd operation = ⟨-1, c.EINVAL, pr.sys.call N (.get_osfhandle fd)⟩)
    ∧ (N.get_osfhandle pr.sys.w fd ≠ c.INVALID_HANDLE_VALUE →
        (operation &&& not32 c.LOCK_NB = c.LOCK_SH ∨ operation &&& not32 c.LOCK_NB = c.LOCK_EX
          ∨ operation &&& not32 c.LOCK_NB = c.LOCK_UN) →
        ∃ res s2 request,
          flockSwitch c N (pr.sys.call N (.get_osfhandle fd)) (N.get_osfhandle pr.sys.w fd)
              (operation &&& c.LOCK_NB) (operation &&& not32 c.LOCK_NB) = some (res, s2)
          ∧ s2.log = pr.sys.log ++ [.get_osfhandle fd,
              .GetFileSize (N.get_osfhandle pr.sys.w fd), request]
          ∧ ((∃ flags lo hi, request = .LockFileEx (N.get_osfhandle pr.sys.w fd) flags 0 0 lo hi
                ∧ res = N.LockFileEx ((pr.sys.call N (.get_osfhandle fd)).call N
                    (.GetFileSize (N.get_osfhandle pr.sys.w fd))).w
                    (N.get_osfhandle pr.sys.w fd) flags lo hi)
              ∨ (∃ lo hi, request = .UnlockFile (N.get_osfhandle pr.sys.w fd) 0 0 lo hi
                ∧ res = N.UnlockFile ((pr.sys.call N (.get_osfhandle fd)).call N
                    (.GetFileSize (N.get_osfhandle pr.sys.w fd))).w
                    (N.get_osfhandle pr.sys.w fd) lo hi))
          ∧ ((flock c N pr fd operation).ret = 0 ↔ res = true)
          ∧ (res = true → flock c N pr fd operation = ⟨0, pr.errno, s2⟩)
          ∧ (res = false → flock c N pr fd operation
              = ⟨-1, N.err_win_to_posix s2.w, s2.call N .err_win_to_posix⟩)) := by
  refine ⟨?_, ?_, ?_⟩
  · intro h
    simp only [flock, if_pos h]
  · intro h h1 h2 h3
    simp only [flock, if_neg h, flockSwitch, if_neg h1, if_neg h2, if_neg h3]
  · intro h hop
    have hsw : ∃ res s2 request,
        flockSwitch c N (pr.sys.call N (.get_osfhandle fd)) (N.get_osfhandle pr.sys.w fd)
          (operation &&& c.LOCK_NB) (operation &&& not32 c.LOCK_NB) = some (res, s2)
        ∧ s2.log = pr.sys.log ++ [.get_osfhandle fd,
            .GetFileSize (N.get_osfhandle pr.sys.w fd), request]
        ∧ ((∃ flags lo hi, request = .LockFileEx (N.get_osfhandle pr.sys.w fd) flags 0 0 lo hi
              ∧ res = N.LockFileEx ((pr.sys.call N (.get_osfhandle fd)).call N
                  (.GetFileSize (N.get_osfhandle pr.sys.w fd))).w
                  (N.get_osfhandle pr.sys.w fd) flags lo hi)
            ∨ (∃ lo hi, request = .UnlockFile (N.get_osfhandle pr.sys.w fd) 0 0 lo hi
              ∧ res = N.UnlockFile ((pr.sys.call N (.get_osfhandle fd)).call N
                  (.GetFileSize (N.get_osfhandle pr.sys.w fd))).w
                  (N.get_osfhandle pr.sys.w fd) lo hi)) := by
      unfold flockSwitch
      split
      · exact ⟨_, _, _, by rw [do_lock_eq], by simp [Sys.call],
          Or.inl ⟨_, _, _, rfl, rfl⟩⟩
      split
      · exact ⟨_, _, _, by rw [do_lock_eq], by simp [Sys.call],
          Or.inl ⟨_, _, _, rfl, rfl⟩⟩
      split
      · exact ⟨_, _, _, by rw [do_unlock_eq], by simp [Sys.call],
          Or.inr ⟨_, _, rfl, rfl⟩⟩
      · rename_i h1 h2 h3
        rcases hop with h | h | h
        · exact absurd h h1
        · exact absurd h h2
        · exact absurd h h3
    obtain ⟨res, s2, request, hsw, hlog, hreq⟩ := hsw
    refine ⟨res, s2, request, hsw, hlog, hreq, ?_, ?_, ?_⟩
    · simp only [flock, if_neg h, hsw]
      cases res <;> simp
    · intro hr
      simp only [flock, if_neg h, hsw, hr]
      simp
    · intro hr
      simp only [flock, if_neg h, hsw, hr]
      simp

theorem lockFlags_exclusive (c : Consts) (non_blocking exclusive : Nat)
    (hEX : c.LOCKFILE_EXCLUSIVE_LOCK ≠ 0)
    (hdisj : c.LOCKFILE_EXCLUSIVE_LOCK &&& c.LOCKFILE_FAIL_IMMEDIATELY = 0) :
    lockFlags c non_blocking exclusive &&& c.LOCKFILE_EXCLUSIVE_LOCK = c.LOCKFILE_EXCLUSIVE_LOCK
      ↔ exclusive ≠ 0 := by
  simp only [lockFlags]
  by_cases hex : exclusive ≠ 0
  · rw [if_pos hex]
    exact ⟨fun _ => hex, fun _ => or_and_of_right _ (Nat.and_self _)⟩
  · rw [if_neg hex]
    refine ⟨fun h => ?_, fun h => absurd h hex⟩
    exfalso
    by_cases hnb : non_blocking ≠ 0
    · rw [if_pos hnb, Nat.zero_or, Nat.and_comm, hdisj] at h
      exact hEX h.symm
    · rw [if_neg hnb, Nat.zero_and] at h
      exact hEX h.symm

theorem lockFlags_fail_immediately (c : Consts) (non_blocking exclusive : Nat)
    (hFI : c.LOCKFILE_FAIL_IMMEDIATELY ≠ 0)
    (hdisj : c.LOCKFILE_EXCLUSIVE_LOCK &&& c.LOCKFILE_FAIL_IMMEDIATELY = 0) :
    lockFlags c non_blocking exclusive &&& c.LOCKFILE_FAIL_IMMEDIATELY
        = c.LOCKFILE_FAIL_IMMEDIATELY
      ↔ non_blocking ≠ 0 := by
  simp only [lockFlags]
  by_cases hnb : non_blocking ≠ 0
  · rw [if_pos hnb, Nat.zero_or]
    refine ⟨fun _ => hnb, fun _ => ?_⟩
    split
    · exact or_and_of_left _ (Nat.and_self _)
    · exact Nat.and_self _
  · rw [if_neg hnb]
    refine ⟨fun h => ?_, fun h => absurd h hnb⟩
    exfalso
    by_cases hex : exclusive ≠ 0
    · rw [if_pos hex, Nat.zero_or, hdisj] at h
      exact hFI h.symm
    · rw [if_neg hex, Nat.zero_and] at h
      exact hFI h.symm

/-- Claim C8. For a valid handle and a recognised operation (the case
labels `LOCK_SH`, `LOCK_EX`, `LOCK_UN` being distinct, and the two
`LockFileEx` flags being distinct bits), the native calls of `flock` are
`_get_osfhandle`, `GetFileSize`, one request, and `err_win_to_posix` when the
request fails.  For `LOCK_UN`, with or without `LOCK_NB`, the request is
`UnlockFile` from offset 0 over the size just queried; otherwise it is
`LockFileEx` from offset 0 over that size, with `LOCKFILE_EXCLUSIVE_LOCK` in
the flags if and only if the operation is `LOCK_EX`, and
`LOCKFILE_FAIL_IMMEDIATELY` if and only if `LOCK_NB` is set. -/
theorem flock_native_request {σ : Type} (c : Consts) (N : Native σ) (pr : Proc σ)
    (fd : Int) (operation : Nat)
    (hdist : c.LOCK_SH ≠ c.LOCK_EX ∧ c.LOCK_SH ≠ c.LOCK_UN ∧ c.LOCK_EX ≠ c.LOCK_UN)
    (hEX : c.LOCKFILE_EXCLUSIVE_LOCK ≠ 0) (hFI : c.LOCKFILE_FAIL_IMMEDIATELY ≠ 0)
    (hdisj : c.LOCKFILE_EXCLUSIVE_LOCK &&& c.LOCKFILE_FAIL_IMMEDIATELY = 0)
    (hvalid : N.get_osfhandle pr.sys.w fd ≠ c.INVALID_HANDLE_VALUE)
    (hop : operation &&& not32 c.LOCK_NB = c.LOCK_SH ∨ operation &&& not32 c.LOCK_NB = c.LOCK_EX
      ∨ operation &&& not32 c.LOCK_NB = c.LOCK_UN) :
    ∃ request tail,
      (flock c N pr fd operation).sys.log
        = pr.sys.log ++ [.get_osfhandle fd, .GetFileSize (N.get_osfhandle pr.sys.w fd), request]
            ++ tail
      ∧ (tail = [] ∨ tail = [.err_win_to_posix])
      ∧ (operation &&& not32 c.LOCK_NB = c.LOCK_UN →
          request = .UnlockFile (N.get_osfhandle pr.sys.w fd) 0 0
            (N.GetFileSize (pr.sys.call N (.get_osfhandle fd)).w (N.get_osfhandle pr.sys.w fd)).1
            (N.GetFileSize (pr.sys.call N (.get_osfhandle fd)).w (N.get_osfhandle pr.sys.w fd)).2)
      ∧ (operation &&& not32 c.LOCK_NB ≠ c.LOCK_UN →
          ∃ flags, request = .LockFileEx (N.get_osfhandle pr.sys.w fd) flags 0 0
            (N.GetFileSize (pr.sys.call N (.get_osfhandle fd)).w (N.get_osfhandle pr.sys.w fd)).1
            (N.GetFileSize (pr.sys.call N (.get_osfhandle fd)).w (N.get_osfhandle pr.sys.w fd)).2
            ∧ (flags &&& c.LOCKFILE_EXCLUSIVE_LOCK = c.LOCKFILE_EXCLUSIVE_LOCK
                ↔ operation &&& not32 c.LOCK_NB = c.LOCK_EX)
            ∧ (flags &&& c.LOCKFILE_FAIL_IMMEDIATELY = c.LOCKFILE_FAIL_IMMEDIATELY
                ↔ operation &&& c.LOCK_NB ≠ 0)) := by
  obtain ⟨hse, hsu, heu⟩ := hdist
  simp only [flock, if_neg hvalid, flockSwitch]
  rcases hop with h | h | h
  · rw [if_pos h, do_lock_eq]
    generalize N.LockFileEx _ _ _ _ _ = res
    refine ⟨.LockFileEx (N.get_osfhandle pr.sys.w fd) (lockFlags c (operation &&& c.LOCK_NB) 0)
        0 0
        (N.GetFileSize (pr.sys.call N (.get_osfhandle fd)).w (N.get_osfhandle pr.sys.w fd)).1
        (N.GetFileSize (pr.sys.call N (.get_osfhandle fd)).w (N.get_osfhandle pr.sys.w fd)).2,
      if res then [] else [.err_win_to_posix], ?_, ?_,
      fun hu => absurd (h.symm.trans hu) hsu, fun _ => ⟨_, rfl, ?_, ?_⟩⟩
    · cases res <;> simp [Sys.call]
    · cases res <;> simp
    · rw [lockFlags_exclusive c _ _ hEX hdisj, h]
      simp [hse]
    · exact lockFlags_fail_immediately c _ _ hFI hdisj
  · rw [if_neg (by rw [h]; exact fun e => hse e.symm), if_pos h, do_lock_eq]
    generalize N.LockFileEx _ _ _ _ _ = res
    refine ⟨.LockFileEx (N.get_osfhandle pr.sys.w fd) (lockFlags c (operation &&& c.LOCK_NB) 1)
        0 0
        (N.GetFileSize (pr.sys.call N (.get_osfhandle fd)).w (N.get_osfhandle pr.sys.w fd)).1
        (N.GetFileSize (pr.sys.call N (.get_osfhandle fd)).w (N.get_osfhandle pr.sys.w fd)).2,
      if res then [] else [.err_win_to_posix], ?_, ?_,
      fun hu => absurd (h.symm.trans hu) heu, fun _ => ⟨_, rfl, ?_, ?_⟩⟩
    · cases res <;> simp [Sys.call]
    · cases res <;> simp
    · rw [lockFlags_exclusive c _ _ hEX hdisj, h]
      simp
    · exact lockFlags_fail_immediately c _ _ hFI hdisj
  · rw [if_neg (by rw [h]; exact fun e => hsu e.symm),
      if_neg (by rw [h]; exact fun e => heu e.symm), if_pos h, do_unlock_eq]
    generalize N.UnlockFile _ _ _ _ = res
    refine ⟨.UnlockFile (N.get_osfhandle pr.sys.w fd) 0 0
        (N.GetFileSize (pr.sys.call N (.get_osfhandle fd)).w (N.get_osfhandle pr.sys.w fd)).1
        (N.GetFileSize (pr.sys.call N (.get_osfhandle fd)).w (N.get_osfhandle pr.sys.w fd)).2,
      if res then [] else [.err_win_to_posix], ?_, ?_, fun _ => rfl, fun hne => absurd h hne⟩
    · cases res <;> simp [Sys.call]
    · cases res <;> simp

theorem exampleNative_waitTerminates (kind : HANDLE → Kind) (tick fuel : Nat) :
    WaitTerminates stdConsts (exampleNative kind tick) (fuel + 1) := by
  intro s hs wt hlen
  refine ⟨s.call (exampleNative kind tick) (.MsgWaitForMultipleObjects hs wt), ?_⟩
  have hne : (258 : Nat) ≠ stdConsts.WAIT_OBJECT_0 + hs.length := by
    have : stdConsts.FD_SETSIZE = 64 := rfl
    have : stdConsts.WAIT_OBJECT_0 = 0 := rfl
    omega
  rw [waitLoop]
  exact if_neg hne

theorem exampleNative_clock (kind : HANDLE → Kind) (tick : Nat) (w : Nat) (k : Call) :
    (exampleNative kind tick).clock w
      ≤ (exampleNative kind tick).clock ((exampleNative kind tick).next w k) := by
  simp only [exampleNative]
  split <;> omega

theorem exampleNative_brokenPipe (tick : Nat) (fd : Int) :
    BrokenPipe stdConsts (exampleNative (fun _ => .brokenPipe) tick) fd := by
  intro w
  refine ⟨fun s => ?_, fun w' => rfl, fun w' => rfl⟩
  simp [IsSocketHandle, IsConsoleHandle, exampleNative]

theorem exampleNative_closedSocket (tick : Nat) (fd : Int) (hfd : 0 ≤ fd) :
    ClosedSocket stdConsts (exampleNative (fun _ => .closedSocket) tick) fd := by
  intro w
  refine ⟨?_, fun s => ?_, fun w' => ⟨stdConsts.FD_CLOSE, rfl, rfl⟩, fun w' => ⟨rfl, ?_⟩⟩
  · show fd + 100 ≠ 0
    omega
  · simp [IsSocketHandle, IsConsoleHandle, exampleNative, stdConsts]
  · simp [exampleNative, stdConsts]

/-- Claim C2, failing input. On a one-entry table whose descriptor is a
broken pipe and whose mask is `POLLPRI` alone, with `timeout = 0`, `poll`
returns 0 although it leaves `revents = POLLHUP` in the entry: the
classification loop stores the bit, the result loop skips the entry and does
not count it. -/
theorem poll_miscounts_priority_only :
    poll stdConsts (exampleNative (fun _ => .brokenPipe) 1) freshProc
        (some [⟨3, stdConsts.POLLPRI, 0⟩]) 1 0 1
      = .ret ⟨0, 0, some [⟨3, stdConsts.POLLPRI, stdConsts.POLLHUP⟩], 99,
          ⟨2, [.clock, .CreateEvent, .clock, .get_osfhandle 3, .GetConsoleMode 103,
            .WSAEnumNetworkEvents 103, .GetFileType 103, .PeekNamedPipe 103,
            .select [] [] [], .MsgWaitForMultipleObjects [99, 103] 0, .select [] [] []]⟩⟩ := by
  rfl

/-- Claim C6, failing input. With an absent table, `nfd = 1` and
`timeout = 0` the Windows-native `poll` does not fail with an error: after
`clock`, `CreateEvent` and `clock` the classification loop reads `pfd[0]`
through the null pointer. -/
theorem poll_null_table_faults :
    poll stdConsts (exampleNative (fun _ => .file) 1) freshProc none 1 0 1
      = .fault ⟨2, [.clock, .CreateEvent, .clock]⟩ := by
  rfl

/-- Claim C4, counterexample. On one entry of descriptor -1 with the
infinite timeout, which validation accepts, no amount of fuel makes `poll`
return: the claim that it returns 0 fails there. -/
theorem infinite_timeout_never_returns_cex :
    ¬ ∃ fuel r, poll stdConsts (exampleNative (fun _ => .file) 1) freshProc
        (some [⟨-1, stdConsts.POLLIN, 0⟩]) 1 (-1) fuel = .ret r := by
  rintro ⟨fuel, r, h⟩
  simp only [poll] at h
  rw [if_neg (by decide)] at h
  obtain ⟨out, h1, _⟩ := Outcome.bind_eq_ret h
  refine pollFrom_allneg_inftim _ _ _ _ _ _ _ _ ?_ out h1
  intro p hp
  simp only [entriesOf, List.take_succ_cons, List.take_zero, List.mem_singleton] at hp
  subst hp
  decide

/-- Claim C9, counterexample. Descriptor 3 is a broken pipe, the mask
requests no bit, and `poll` returns with `revents = 0`, which does not
contain `POLLHUP`. -/
theorem unrequested_hangup_missed_cex :
    BrokenPipe stdConsts (exampleNative (fun _ => .brokenPipe) 1) 3
    ∧ poll stdConsts (exampleNative (fun _ => .brokenPipe) 1) freshProc
        (some [⟨3, 0, 0⟩]) 1 0 1
      = .ret ⟨0, 0, some [⟨3, 0, 0⟩], 99,
          ⟨2, [.clock, .CreateEvent, .clock, .select [] [] [],
            .MsgWaitForMultipleObjects [99] 0, .select [] [] []]⟩⟩
    ∧ (0 : Nat) &&& stdConsts.POLLHUP ≠ stdConsts.POLLHUP :=
  ⟨exampleNative_brokenPipe 1 3, by rfl, by decide⟩

/-- Claim C4, witness: two negative descriptors and a timeout of one second. -/
theorem poll_all_invalid_witness :
    ∃ r, poll stdConsts (exampleNative (fun _ => .file) 1) freshProc
        (some [⟨-1, 1, 7⟩, ⟨-5, 4, 9⟩]) 2 1000 1 = .ret r
      ∧ r.ret = 0 ∧ r.pfd = some [⟨-1, 1, 0⟩, ⟨-5, 4, 0⟩] := by
  obtain ⟨r, ws, tail, h, h0, _, hp, _⟩ :=
    (poll_all_invalid stdConsts (exampleNative (fun _ => .file) 1) freshProc
      (some [⟨-1, 1, 7⟩, ⟨-5, 4, 9⟩]) 2 1000 1 (by rfl) (by decide) (by decide) (by decide)).2
      (by decide) (exampleNative_waitTerminates _ 1 0)
  exact ⟨r, h, h0, by rw [hp]; rfl⟩

/-- Claim C5, witness: one idle pipe polled with `timeout = 0`. -/
theorem poll_zero_timeout_never_blocks_witness :
    ∃ r, poll stdConsts (exampleNative (fun _ => .idlePipe) 1) freshProc
        (some [⟨3, 1, 0⟩]) 1 0 1 = .ret r :=
  (poll_zero_timeout_never_blocks stdConsts (exampleNative (fun _ => .idlePipe) 1) freshProc
    (some [⟨3, 1, 0⟩]) 1 1 (by decide) (exampleNative_clock _ 1)).2.2 (by rfl)
    (by
      intro p hp w
      simp only [entriesOf, List.take_succ_cons, List.take_zero, List.mem_singleton] at hp
      subst hp
      show (3 : Int) + 100 ≠ 0
      decide)
    (by decide) (exampleNative_waitTerminates _ 1 0)

/-- Claim C7, witness: the operations `0`, `LOCK_NB` and
`LOCK_SH | LOCK_EX` are rejected with `EINVAL`. -/
theorem flock_classifies_failures_witness :
    flock stdConsts (exampleNative (fun _ => .file) 1) freshProc 3 0
        = ⟨-1, 22, ⟨0, [.get_osfhandle 3]⟩⟩
    ∧ flock stdConsts (exampleNative (fun _ => .file) 1) freshProc 3 stdConsts.LOCK_NB
        = ⟨-1, 22, ⟨0, [.get_osfhandle 3]⟩⟩
    ∧ flock stdConsts (exampleNative (fun _ => .file) 1) freshProc 3
          (stdConsts.LOCK_SH ||| stdConsts.LOCK_EX)
        = ⟨-1, 22, ⟨0, [.get_osfhandle 3]⟩⟩ :=
  ⟨(flock_classifies_failures stdConsts (exampleNative (fun _ => .file) 1) freshProc 3 0).2.1
      (by decide) (by decide) (by decide) (by decide),
    (flock_classifies_failures stdConsts (exampleNative (fun _ => .file) 1) freshProc 3
      stdConsts.LOCK_NB).2.1 (by decide) (by decide) (by decide) (by decide),
    (flock_classifies_failures stdConsts (exampleNative (fun _ => .file) 1) freshProc 3
      (stdConsts.LOCK_SH ||| stdConsts.LOCK_EX)).2.1 (by decide) (by decide) (by decide)
      (by decide)⟩

/-- Claim C8, witness: `LOCK_EX | LOCK_NB` on a file of 4096 bytes. -/
theorem flock_native_request_witness :
    ∃ request tail,
      (flock stdConsts (exampleNative (fun _ => .file) 1) freshProc 3
          (stdConsts.LOCK_EX ||| stdConsts.LOCK_NB)).sys.log
        = [] ++ [.get_osfhandle 3, .GetFileSize 103, request] ++ tail
      ∧ ∃ flags, request = .LockFileEx 103 flags 0 0 4096 0
        ∧ flags &&& stdConsts.LOCKFILE_EXCLUSIVE_LOCK = stdConsts.LOCKFILE_EXCLUSIVE_LOCK
        ∧ flags &&& stdConsts.LOCKFILE_FAIL_IMMEDIATELY = stdConsts.LOCKFILE_FAIL_IMMEDIATELY := by
  obtain ⟨request, tail, hlog, _, _, hlock⟩ :=
    flock_native_request stdConsts (exampleNative (fun _ => .file) 1) freshProc 3
      (stdConsts.LOCK_EX ||| stdConsts.LOCK_NB) (by decide) (by decide) (by decide) (by decide)
      (by decide) (Or.inr (Or.inl (by decide)))
  obtain ⟨flags, hreq, hex, hfi⟩ := hlock (by decide)
  exact ⟨request, tail, hlog, flags, hreq, hex.2 (by decide), hfi.2 (by decide)⟩

/-- Claim C9, witness: a closed socket polled for `POLLIN` with the
infinite timeout. -/
theorem poll_reports_hangup_witness :
    ∃ r tbl q, poll stdConsts (exampleNative (fun _ => .closedSocket) 1) freshProc
        (some [⟨3, stdConsts.POLLIN, 0⟩]) 1 (-1) 1 = .ret r
      ∧ r.pfd = some tbl ∧ tbl[0]? = some q
      ∧ q.revents &&& stdConsts.POLLHUP = stdConsts.POLLHUP := by
  have hthm := poll_reports_hangup stdConsts (exampleNative (fun _ => .closedSocket) 1) freshProc
    [⟨3, stdConsts.POLLIN, 0⟩] 1 (-1) 1 0 ⟨3, stdConsts.POLLIN, 0⟩ stdConsts_sane (by decide)
    (by decide) (by decide) (by rfl) (by decide)
    (Or.inr ⟨exampleNative_closedSocket 1 3 (by decide), by decide⟩)
  obtain ⟨r, hr⟩ := hthm.2 (by decide) (by decide)
    (by
      intro p hp w
      simp only [List.take_succ_cons, List.take_zero, List.mem_singleton] at hp
      subst hp
      show (3 : Int) + 100 ≠ 0
      decide)
    (by decide) (exampleNative_waitTerminates _ 1 0)
  obtain ⟨tbl, q, h1, h2, _, _, h3⟩ := hthm.1 r hr
  exact ⟨r, tbl, q, hr, h1, h2, h3⟩

/-- Claim C10, witness: a broken pipe polled for `POLLOUT` with the
infinite timeout. -/
theorem poll_broken_pipe_write_witness :
    ∃ r, poll stdConsts (exampleNative (fun _ => .brokenPipe) 1) freshProc
        (some [⟨3, stdConsts.POLLOUT, 0⟩]) 1 (-1) 1 = .ret r
      ∧ r.ret = 1 ∧ r.pfd = some [⟨3, stdConsts.POLLOUT, stdConsts.POLLHUP⟩] := by
  obtain ⟨r, hr, h1, h2, _⟩ :=
    poll_broken_pipe_write stdConsts (exampleNative (fun _ => .brokenPipe) 1) freshProc
      ⟨3, stdConsts.POLLOUT, 0⟩ [] 103 (-1) 1 stdConsts_sane (by decide) (by decide)
      (by decide) (fun _ => rfl) (by decide) (exampleNative_brokenPipe 1 3 0).1
      (exampleNative_brokenPipe 1 3 0).2.1 (exampleNative_brokenPipe 1 3 0).2.2 (by decide)
      (exampleNative_waitTerminates _ 1 0)
  exact ⟨r, hr, h1, h2⟩

/-- Claim C11, failing input. Descriptor 3 is a socket and its mask is
`POLLPRI` alone, with `timeout = 0`.  The classification loop registers the
socket on the shared event with `FD_CLOSE | FD_OOB`; the result loop skips the
entry, so that `poll` returns 0 without any `WSAEventSelect (h, 0, 0)`: the
socket is left registered. -/
theorem priority_only_socket_stays_registered :
    poll stdConsts (exampleNative (fun _ => .closedSocket) 1) freshProc
        (some [⟨3, stdConsts.POLLPRI, 0⟩]) 1 0 1
      = .ret ⟨0, 0, some [⟨3, stdConsts.POLLPRI, 0⟩], 99,
          ⟨2, [.clock, .CreateEvent, .clock, .get_osfhandle 3, .GetConsoleMode 103,
            .WSAEnumNetworkEvents 103,
            .WSAEventSelect 103 99 (stdConsts.FD_CLOSE ||| stdConsts.FD_OOB),
            .select [] [] [103], .MsgWaitForMultipleObjects [99] 0, .select [] [] []]⟩⟩ := by
  rfl

/-- Claim C12, failing input. Descriptor 3 is a console input buffer
without pending input, polled for `POLLIN` with `timeout = 1000`, in an
environment whose clock counts the milliseconds spent in waits and sleeps.
The deadline is `tend = 1000`.  The first pass waits 1000 ms; the pass entered
through `restart` reads the clock at 1001, so that nothing is left to wait,
and yet hands the timeout 1000 to `MsgWaitForMultipleObjects` again: `poll`
returns at time 2001, after 2000 ms in blocking waits. -/
theorem restart_waits_full_timeout_again :
    poll stdConsts consoleNative freshProc (some [⟨3, stdConsts.POLLIN, 0⟩]) 1 1000 2
      = .ret ⟨0, 0, some [⟨3, stdConsts.POLLIN, 0⟩], 99,
          ⟨2001, [.clock, .CreateEvent,
            .clock, .get_osfhandle 3, .GetConsoleMode 103, .GetFileType 103,
            .GetConsoleMode 103, .GetNumberOfConsoleInputEvents 103, .select [] [] [],
            .MsgWaitForMultipleObjects [99, 103] 1000, .select [] [] [],
            .get_osfhandle 3, .GetFileType 103, .GetConsoleMode 103,
            .GetNumberOfConsoleInputEvents 103,
            .SleepEx 1,
            .clock, .get_osfhandle 3, .GetConsoleMode 103, .GetFileType 103,
            .GetConsoleMode 103, .GetNumberOfConsoleInputEvents 103, .select [] [] [],
            .MsgWaitForMultipleObjects [99, 103] 1000, .select [] [] [],
            .get_osfhandle 3, .GetFileType 103, .GetConsoleMode 103,
            .GetNumberOfConsoleInputEvents 103]⟩⟩ := by
  rfl

theorem and_or_eq_zero {x a b : Nat} (h : x &&& (a ||| b) = 0) :
    x &&& a = 0 ∧ x &&& b = 0 := by
  constructor
  · apply Nat.eq_of_testBit_eq
    intro i
    have := congrArg (fun n => Nat.testBit n i) h
    simp only [Nat.testBit_and, Nat.testBit_or, Nat.zero_testBit] at this ⊢
    cases hx : x.testBit i <;> cases ha : a.testBit i <;> simp_all
  · apply Nat.eq_of_testBit_eq
    intro i
    have := congrArg (fun n => Nat.testBit n i) h
    simp only [Nat.testBit_and, Nat.testBit_or, Nat.zero_testBit] at this ⊢
    cases hx : x.testBit i <;> cases hb : b.testBit i <;> simp_all

theorem masked_and_eq_zero {m x : Nat} (sought : Nat) (h : m &&& x = 0) :
    (m &&& sought) &&& x = 0 := by
  apply Nat.eq_of_testBit_eq
  intro i
  have := congrArg (fun n => Nat.testBit n i) h
  simp only [Nat.testBit_and, Nat.zero_testBit] at this ⊢
  cases hm : m.testBit i <;> cases hx : x.testBit i <;> simp_all

theorem or_and_eq_zero {p q x : Nat} (hp : p &&& x = 0) (hq : q &&& x = 0) :
    (p ||| q) &&& x = 0 := by
  rw [Nat.and_distrib_right, hp, hq]
  rfl

theorem windows_compute_revents_socket_eq {σ : Type} (c : Consts) (N : Native σ) (s : Sys σ)
    (h : HANDLE) (sought ev : Nat) :
    windows_compute_revents_socket c N s h sought ev
      = ((socketReadSide c N s h sought ev 0).1
          ||| (if ev &&& (c.FD_WRITE ||| c.FD_CONNECT) ≠ 0 then c.wrMask &&& sought else 0)
          ||| (if ev &&& c.FD_OOB ≠ 0 then c.priMask &&& sought else 0),
        (socketReadSide c N s h sought ev 0).2) := by
  simp only [windows_compute_revents_socket, Consts.wrMask, Consts.priMask]
  split <;> split <;> simp

theorem stdConsts_socketSane : stdConsts.SocketSane :=
  ⟨by decide, by decide, by decide⟩

/-- Claim C13. `windows_compute_revents_socket` returns the bits of the
read side, joined with the requested writable bits when `FD_WRITE` or
`FD_CONNECT` fired and with the requested priority bits when `FD_OOB` fired.
When the fired events restricted to `FD_READ`, `FD_ACCEPT`, `FD_CLOSE` are
exactly `FD_ACCEPT`, no peek is made, the read side is
`sought & (POLLIN | POLLRDNORM)` and the result holds neither `POLLHUP` nor
`POLLERR`.  Otherwise, when one of the three fired, one peek `recv` is made
and the read side is `sought & (POLLIN | POLLRDNORM)` if `r > 0` or the error
is `WSAENOTCONN`; else `POLLHUP` if `r = 0` or the error is one of
`WSAESHUTDOWN`, `WSAECONNRESET`, `WSAECONNABORTED`, `WSAENETRESET`; else
`POLLERR`.  When none of the three fired, no peek is made and the result
holds none of `POLLIN`, `POLLRDNORM`, `POLLHUP`, `POLLERR`.  The statements
about bits that are absent rely on the event bits of `poll.h` being apart
from each other and on `FD_ACCEPT` being non-zero. -/
theorem socket_read_side_classification {σ : Type} (c : Consts) (N : Native σ) (s : Sys σ)
    (h : HANDLE) (sought ev : Nat) (hc : c.SocketSane) :
    (windows_compute_revents_socket c N s h sought ev
        = ((socketReadSide c N s h sought ev 0).1
            ||| (if ev &&& (c.FD_WRITE ||| c.FD_CONNECT) ≠ 0 then c.wrMask &&& sought else 0)
            ||| (if ev &&& c.FD_OOB ≠ 0 then c.priMask &&& sought else 0),
          (socketReadSide c N s h sought ev 0).2))
    ∧ (ev &&& (c.FD_READ ||| c.FD_ACCEPT ||| c.FD_CLOSE) = c.FD_ACCEPT →
        socketReadSide c N s h sought ev 0 = ((c.POLLIN ||| c.POLLRDNORM) &&& sought, s)
        ∧ (windows_compute_revents_socket c N s h sought ev).2 = s
        ∧ (windows_compute_revents_socket c N s h sought ev).1 &&& c.POLLHUP = 0
        ∧ (windows_compute_revents_socket c N s h sought ev).1 &&& c.POLLERR = 0)
    ∧ (ev &&& (c.FD_READ ||| c.FD_ACCEPT ||| c.FD_CLOSE) ≠ c.FD_ACCEPT →
        ev &&& (c.FD_READ ||| c.FD_ACCEPT ||| c.FD_CLOSE) ≠ 0 →
        (socketReadSide c N s h sought ev 0).2 = s.call N (.recv h)
        ∧ (socketReadSide c N s h sought ev 0).1
          = if 0 < (N.recv s.w h).1 ∨ (N.recv s.w h).2 = c.WSAENOTCONN then
              (c.POLLIN ||| c.POLLRDNORM) &&& sought
            else if (N.recv s.w h).1 = 0 ∨ (N.recv s.w h).2 = c.WSAESHUTDOWN
                ∨ (N.recv s.w h).2 = c.WSAECONNRESET ∨ (N.recv s.w h).2 = c.WSAECONNABORTED
                ∨ (N.recv s.w h).2 = c.WSAENETRESET then c.POLLHUP
            else c.POLLERR)
    ∧ (ev &&& (c.FD_READ ||| c.FD_ACCEPT ||| c.FD_CLOSE) = 0 →
        socketReadSide c N s h sought ev 0 = (0, s)
        ∧ (windows_compute_revents_socket c N s h sought ev).2 = s
        ∧ (windows_compute_revents_socket c N s h sought ev).1 &&& c.POLLIN = 0
        ∧ (windows_compute_revents_socket c N s h sought ev).1 &&& c.POLLRDNORM = 0
        ∧ (windows_compute_revents_socket c N s h sought ev).1 &&& c.POLLHUP = 0
        ∧ (windows_compute_revents_socket c N s h sought ev).1 &&& c.POLLERR = 0) := by
  have hwr : ∀ x, (c.wrMask ||| c.priMask) &&& x = 0 →
      ((if ev &&& (c.FD_WRITE ||| c.FD_CONNECT) ≠ 0 then c.wrMask &&& sought else 0)
        ||| (if ev &&& c.FD_OOB ≠ 0 then c.priMask &&& sought else 0)) &&& x = 0 := by
    intro x hx
    have hx1 : c.wrMask &&& x = 0 := by
      rw [Nat.and_comm] at hx ⊢
      exact (and_or_eq_zero hx).1
    have hx2 : c.priMask &&& x = 0 := by
      rw [Nat.and_comm] at hx ⊢
      exact (and_or_eq_zero hx).2
    apply or_and_eq_zero
    · split
      · exact masked_and_eq_zero sought hx1
      · exact Nat.zero_and x
    · split
      · exact masked_and_eq_zero sought hx2
      · exact Nat.zero_and x
  have h4 := hc.wr_disj
  have hIN : (c.wrMask ||| c.priMask) &&& c.POLLIN = 0 :=
    (and_or_eq_zero (and_or_eq_zero (and_or_eq_zero h4).1).1).1
  have hRD : (c.wrMask ||| c.priMask) &&& c.POLLRDNORM = 0 :=
    (and_or_eq_zero (and_or_eq_zero (and_or_eq_zero h4).1).1).2
  have hHUP : (c.wrMask ||| c.priMask) &&& c.POLLHUP = 0 :=
    (and_or_eq_zero (and_or_eq_zero h4).1).2
  have hERR : (c.wrMask ||| c.priMask) &&& c.POLLERR = 0 := (and_or_eq_zero h4).2
  have hrdH : c.rdMask &&& c.POLLHUP = 0 := (and_or_eq_zero hc.rd_disj).1
  have hrdE : c.rdMask &&& c.POLLERR = 0 := (and_or_eq_zero hc.rd_disj).2
  refine ⟨windows_compute_revents_socket_eq c N s h sought ev, ?_, ?_, ?_⟩
  · intro h3
    have hrd : socketReadSide c N s h sought ev 0 = ((c.POLLIN ||| c.POLLRDNORM) &&& sought, s) := by
      simp only [socketReadSide, if_pos h3, Nat.zero_or]
    rw [windows_compute_revents_socket_eq, hrd]
    refine ⟨rfl, rfl, ?_, ?_⟩
    · simp only [Nat.or_assoc]
      exact or_and_eq_zero (masked_and_eq_zero sought hrdH) (hwr _ hHUP)
    · simp only [Nat.or_assoc]
      exact or_and_eq_zero (masked_and_eq_zero sought hrdE) (hwr _ hERR)
  · intro h3 h0
    simp only [socketReadSide, if_neg h3, if_pos h0, Nat.zero_or]
    constructor
    · split
      · rfl
      · split <;> rfl
    · split
      · rfl
      · split <;> rfl
  · intro h0
    have h3 : ev &&& (c.FD_READ ||| c.FD_ACCEPT ||| c.FD_CLOSE) ≠ c.FD_ACCEPT := by
      rw [h0]; exact fun e => hc.accept_ne e.symm
    have hrd : socketReadSide c N s h sought ev 0 = (0, s) := by
      rw [socketReadSide, if_neg h3, if_neg (by simp [h0])]
    rw [windows_compute_revents_socket_eq, hrd]
    simp only [Nat.or_assoc, Nat.zero_or]
    exact ⟨trivial, trivial, hwr _ hIN, hwr _ hRD, hwr _ hHUP, hwr _ hERR⟩

/-- Claim C13, witness: a pure accept event with `POLLIN` requested, for
the constants of the Windows headers. -/
theorem socket_read_side_classification_witness :
    stdConsts.SocketSane
    ∧ (socketReadSide stdConsts (exampleNative (fun _ => .closedSocket) 1) ⟨0, []⟩ 103
          stdConsts.POLLIN stdConsts.FD_ACCEPT 0 = (stdConsts.POLLIN, ⟨0, []⟩)) :=
  ⟨stdConsts_socketSane,
    ((socket_read_side_classification stdConsts (exampleNative (fun _ => .closedSocket) 1)
      ⟨0, []⟩ 103 stdConsts.POLLIN stdConsts.FD_ACCEPT stdConsts_socketSane).2.1
        (by decide)).1⟩

/-- Claim C14, counterexample. Handle 103 is of pipe type, its peek
succeeds and reports no pending byte, so that no closure is detected, and
`POLLOUT` is sought: the probe returns no bit at all, hence not the requested
writable bit. -/
theorem idle_pipe_not_writable_cex :
    (exampleNative (fun _ => .idlePipe) 1).GetFileType 0 103 = stdConsts.FILE_TYPE_PIPE
    ∧ (exampleNative (fun _ => .idlePipe) 1).PeekNamedPipe 0 103 = .ok 0
    ∧ stdConsts.POLLOUT &&& stdConsts.wrMask = stdConsts.POLLOUT
    ∧ windows_compute_revents stdConsts (exampleNative (fun _ => .idlePipe) 1) ⟨0, []⟩ 103
          stdConsts.POLLOUT
        = (0, stdConsts.POLLOUT, ⟨0, [.GetFileType 103, .PeekNamedPipe 103]⟩)
    ∧ (windows_compute_revents stdConsts (exampleNative (fun _ => .idlePipe) 1) ⟨0, []⟩ 103
          stdConsts.POLLOUT).1 &&& (stdConsts.POLLOUT &&& stdConsts.wrMask)
        ≠ stdConsts.POLLOUT &&& stdConsts.wrMask := by
  refine ⟨rfl, rfl, by decide, rfl, by decide⟩

/-- Claim C14, amended. For a handle of type `FILE_TYPE_PIPE` and every
sought mask, `windows_compute_revents` makes the two native calls
`GetFileType` and `PeekNamedPipe`, leaves `*p_sought` as it was, and returns:
the requested writable bits `sought & (POLLOUT | POLLWRNORM | POLLWRBAND)`,
and nothing else, when the peek fails with an error other than
`ERROR_BROKEN_PIPE`; `POLLHUP` when it fails with `ERROR_BROKEN_PIPE`; the
requested readable bits `sought & (POLLIN | POLLRDNORM)` when it succeeds
with bytes pending; and no bit when it succeeds without pending bytes. -/
theorem pipe_probe_outcomes {σ : Type} (c : Consts) (N : Native σ) (s : Sys σ)
    (h : HANDLE) (sought : Nat) (hpipe : N.GetFileType s.w h = c.FILE_TYPE_PIPE) :
    (windows_compute_revents c N s h sought).2.1 = sought
    ∧ (windows_compute_revents c N s h sought).2.2
        = (s.call N (.GetFileType h)).call N (.PeekNamedPipe h)
    ∧ (∀ e, N.PeekNamedPipe (s.call N (.GetFileType h)).w h = .failed e →
        e ≠ c.ERROR_BROKEN_PIPE →
        (windows_compute_revents c N s h sought).1 = sought &&& c.wrMask)
    ∧ (N.PeekNamedPipe (s.call N (.GetFileType h)).w h = .failed c.ERROR_BROKEN_PIPE →
        (windows_compute_revents c N s h sought).1 = c.POLLHUP)
    ∧ (∀ avail, N.PeekNamedPipe (s.call N (.GetFileType h)).w h = .ok avail → avail ≠ 0 →
        (windows_compute_revents c N s h sought).1 = sought &&& c.rdMask)
    ∧ (N.PeekNamedPipe (s.call N (.GetFileType h)).w h = .ok 0 →
        (windows_compute_revents c N s h sought).1 = 0) := by
  simp only [windows_compute_revents, if_pos hpipe, Consts.wrMask, Consts.rdMask]
  cases hp : N.PeekNamedPipe (s.call N (.GetFileType h)).w h with
  | ok avail =>
    by_cases ha : avail = 0
    · subst ha
      simp
    · simp [ha]
  | failed e =>
    by_cases he : e = c.ERROR_BROKEN_PIPE
    · subst he
      simp
    · simp [he]

/-- Claim C14, witness: a handle of pipe type whose peek fails with error
6, polled for `POLLIN | POLLOUT`, is reported writable. -/
theorem pipe_probe_outcomes_witness :
    (exampleNative (fun _ => .closedSocket) 1).GetFileType 0 103 = stdConsts.FILE_TYPE_PIPE
    ∧ (windows_compute_revents stdConsts (exampleNative (fun _ => .closedSocket) 1) ⟨0, []⟩ 103
          (stdConsts.POLLIN ||| stdConsts.POLLOUT)).1
        = (stdConsts.POLLIN ||| stdConsts.POLLOUT) &&& stdConsts.wrMask :=
  ⟨rfl,
    (pipe_probe_outcomes stdConsts (exampleNative (fun _ => .closedSocket) 1) ⟨0, []⟩ 103
      (stdConsts.POLLIN ||| stdConsts.POLLOUT) rfl).2.2.1 6 rfl (by decide)⟩

/-- Claim C15, failing inputs, both with `timeout = 0`.  First, descriptor
3 is a console input buffer polled for `POLLOUT` alone: the classification
loop probes it with `windows_compute_revents`, which clears every sought bit,
so the handle is not stored in `handle_array`, and the result loop takes it
for a socket (`WSAEnumNetworkEvents`, `WSAEventSelect (h, 0, 0)`).  Second,
descriptors 3 and 4 are idle pipes, 3 polled for `POLLPRI` alone and 4 for
`POLLIN`: both are probed as non-sockets and stored, the result loop skips
entry 0 without advancing in `handle_array`, compares the handle of entry 1
with the slot of entry 0, and takes it for a socket. -/
theorem result_loop_reclassifies_as_socket :
    poll stdConsts consoleNative freshProc (some [⟨3, stdConsts.POLLOUT, 0⟩]) 1 0 1
      = .ret ⟨0, 0, some [⟨3, stdConsts.POLLOUT, 0⟩], 99,
          ⟨0, [.clock, .CreateEvent, .clock,
            .get_osfhandle 3, .GetConsoleMode 103, .GetFileType 103, .GetConsoleMode 103,
            .GetNumberOfConsoleInputEvents 103,
            .select [] [] [], .MsgWaitForMultipleObjects [99] 0, .select [] [] [],
            .get_osfhandle 3, .WSAEnumNetworkEvents 103, .WSAEventSelect 103 0 0]⟩⟩
    ∧ poll stdConsts (exampleNative (fun _ => .idlePipe) 1) freshProc
        (some [⟨3, stdConsts.POLLPRI, 0⟩, ⟨4, stdConsts.POLLIN, 0⟩]) 2 0 1
      = .ret ⟨0, 0, some [⟨3, stdConsts.POLLPRI, 0⟩, ⟨4, stdConsts.POLLIN, 0⟩], 99,
          ⟨2, [.clock, .CreateEvent, .clock,
            .get_osfhandle 3, .GetConsoleMode 103, .WSAEnumNetworkEvents 103,
            .GetFileType 103, .PeekNamedPipe 103,
            .get_osfhandle 4, .GetConsoleMode 104, .WSAEnumNetworkEvents 104,
            .GetFileType 104, .PeekNamedPipe 104,
            .select [] [] [], .MsgWaitForMultipleObjects [99, 103, 104] 0, .select [] [] [],
            .get_osfhandle 4, .WSAEnumNetworkEvents 104, .WSAEventSelect 104 0 0]⟩⟩ := by
  constructor <;> rfl

end BusyboxW32
